import Mathlib

/-!
Shallow embedding of the risk-information orchestration engine
(`helpers/obtener_info_riesgos.py` and `utils/crud_postgres.py`).

Python runtime values are modelled by `PyVal` (floats and arbitrary objects
are outside the model; every value this code manipulates is a JSON-like
tree of `None`, booleans, integers, strings, lists and string-keyed dicts).
Python exceptions are modelled by `Except PyErr`; external effects (HTTP
calls, the generative model, base64 decoding, database statements) are
modelled by oracle functions passed as explicit parameters, and the calls
the orchestrators make are recorded in traces.
-/

namespace Riesgos

/-- Model of the Python values handled by the engine: `None`, `bool`, `int`,
`str`, `list`, and string-keyed `dict` (the dicts this program builds and
parses all use string keys). `builtin s` models the builtin-function object
bound to the name `s` in the interpreter's builtins namespace. -/
inductive PyVal : Type where
  | none : PyVal
  | bool : Bool → PyVal
  | int : Int → PyVal
  | str : String → PyVal
  | list : List PyVal → PyVal
  | dict : List (String × PyVal) → PyVal
  | builtin : String → PyVal

mutual
/-- Decidable equality for `PyVal` (the nested `List` forces a manual instance). -/
def PyVal.decEq : (a b : PyVal) → Decidable (a = b)
  | .none, .none => isTrue rfl
  | .bool a, .bool b =>
      if h : a = b then isTrue (congrArg PyVal.bool h)
      else isFalse (fun hh => h (PyVal.bool.inj hh))
  | .int a, .int b =>
      if h : a = b then isTrue (congrArg PyVal.int h)
      else isFalse (fun hh => h (PyVal.int.inj hh))
  | .str a, .str b =>
      if h : a = b then isTrue (congrArg PyVal.str h)
      else isFalse (fun hh => h (PyVal.str.inj hh))
  | .list xs, .list ys =>
      match PyVal.decEqList xs ys with
      | isTrue h => isTrue (congrArg PyVal.list h)
      | isFalse h => isFalse (fun hh => h (PyVal.list.inj hh))
  | .dict xs, .dict ys =>
      match PyVal.decEqDict xs ys with
      | isTrue h => isTrue (congrArg PyVal.dict h)
      | isFalse h => isFalse (fun hh => h (PyVal.dict.inj hh))
  | .builtin a, .builtin b =>
      if h : a = b then isTrue (congrArg PyVal.builtin h)
      else isFalse (fun hh => h (PyVal.builtin.inj hh))
  | .none, .bool _ => isFalse (by intro h; exact PyVal.noConfusion h)
  | .none, .int _ => isFalse (by intro h; exact PyVal.noConfusion h)
  | .none, .str _ => isFalse (by intro h; exact PyVal.noConfusion h)
  | .none, .list _ => isFalse (by intro h; exact PyVal.noConfusion h)
  | .none, .dict _ => isFalse (by intro h; exact PyVal.noConfusion h)
  | .none, .builtin _ => isFalse (by intro h; exact PyVal.noConfusion h)
  | .bool _, .none => isFalse (by intro h; exact PyVal.noConfusion h)
  | .bool _, .int _ => isFalse (by intro h; exact PyVal.noConfusion h)
  | .bool _, .str _ => isFalse (by intro h; exact PyVal.noConfusion h)
  | .bool _, .list _ => isFalse (by intro h; exact PyVal.noConfusion h)
  | .bool _, .dict _ => isFalse (by intro h; exact PyVal.noConfusion h)
  | .bool _, .builtin _ => isFalse (by intro h; exact PyVal.noConfusion h)
  | .int _, .none => isFalse (by intro h; exact PyVal.noConfusion h)
  | .int _, .bool _ => isFalse (by intro h; exact PyVal.noConfusion h)
  | .int _, .str _ => isFalse (by intro h; exact PyVal.noConfusion h)
  | .int _, .list _ => isFalse (by intro h; exact PyVal.noConfusion h)
  | .int _, .dict _ => isFalse (by intro h; exact PyVal.noConfusion h)
  | .int _, .builtin _ => isFalse (by intro h; exact PyVal.noConfusion h)
  | .str _, .none => isFalse (by intro h; exact PyVal.noConfusion h)
  | .str _, .bool _ => isFalse (by intro h; exact PyVal.noConfusion h)
  | .str _, .int _ => isFalse (by intro h; exact PyVal.noConfusion h)
  | .str _, .list _ => isFalse (by intro h; exact PyVal.noConfusion h)
  | .str _, .dict _ => isFalse (by intro h; exact PyVal.noConfusion h)
  | .str _, .builtin _ => isFalse (by intro h; exact PyVal.noConfusion h)
  | .list _, .none => isFalse (by intro h; exact PyVal.noConfusion h)
  | .list _, .bool _ => isFalse (by intro h; exact PyVal.noConfusion h)
  | .list _, .int _ => isFalse (by intro h; exact PyVal.noConfusion h)
  | .list _, .str _ => isFalse (by intro h; exact PyVal.noConfusion h)
  | .list _, .dict _ => isFalse (by intro h; exact PyVal.noConfusion h)
  | .list _, .builtin _ => isFalse (by intro h; exact PyVal.noConfusion h)
  | .dict _, .none => isFalse (by intro h; exact PyVal.noConfusion h)
  | .dict _, .bool _ => isFalse (by intro h; exact PyVal.noConfusion h)
  | .dict _, .int _ => isFalse (by intro h; exact PyVal.noConfusion h)
  | .dict _, .str _ => isFalse (by intro h; exact PyVal.noConfusion h)
  | .dict _, .list _ => isFalse (by intro h; exact PyVal.noConfusion h)
  | .dict _, .builtin _ => isFalse (by intro h; exact PyVal.noConfusion h)
  | .builtin _, .none => isFalse (by intro h; exact PyVal.noConfusion h)
  | .builtin _, .bool _ => isFalse (by intro h; exact PyVal.noConfusion h)
  | .builtin _, .int _ => isFalse (by intro h; exact PyVal.noConfusion h)
  | .builtin _, .str _ => isFalse (by intro h; exact PyVal.noConfusion h)
  | .builtin _, .list _ => isFalse (by intro h; exact PyVal.noConfusion h)
  | .builtin _, .dict _ => isFalse (by intro h; exact PyVal.noConfusion h)

/-- Decidable equality for lists of `PyVal`. -/
def PyVal.decEqList : (a b : List PyVal) → Decidable (a = b)
  | [], [] => isTrue rfl
  | [], _ :: _ => isFalse (by intro h; exact List.noConfusion h)
  | _ :: _, [] => isFalse (by intro h; exact List.noConfusion h)
  | x :: xs, y :: ys =>
      match PyVal.decEq x y with
      | isTrue h1 =>
          match PyVal.decEqList xs ys with
          | isTrue h2 => isTrue (by rw [h1, h2])
          | isFalse h2 => isFalse (by intro hh; injection hh with h3 h4; exact h2 h4)
      | isFalse h1 => isFalse (by intro hh; injection hh with h3 h4; exact h1 h3)

/-- Decidable equality for string-keyed association lists of `PyVal`. -/
def PyVal.decEqDict : (a b : List (String × PyVal)) → Decidable (a = b)
  | [], [] => isTrue rfl
  | [], _ :: _ => isFalse (by intro h; exact List.noConfusion h)
  | _ :: _, [] => isFalse (by intro h; exact List.noConfusion h)
  | (k1, v1) :: xs, (k2, v2) :: ys =>
      if hk : k1 = k2 then
        match PyVal.decEq v1 v2 with
        | isTrue h1 =>
            match PyVal.decEqDict xs ys with
            | isTrue h2 => isTrue (by rw [hk, h1, h2])
            | isFalse h2 => isFalse (by intro hh; injection hh with h3 h4; exact h2 h4)
        | isFalse h1 =>
            isFalse (by
              intro hh; injection hh with h3 h4
              exact h1 (congrArg Prod.snd h3))
      else
        isFalse (by
          intro hh; injection hh with h3 h4
          exact hk (congrArg Prod.fst h3))
end

instance : DecidableEq PyVal := PyVal.decEq

/-- Python exception classes that this code can raise or catch. -/
inductive PyErr : Type where
  | keyError : PyErr
  | indexError : PyErr
  | valueError : PyErr
  | typeError : PyErr
  | attributeError : PyErr
  | nameError : PyErr
  | dbError : PyErr
deriving Repr, DecidableEq

/-- Python truthiness (`bool(v)`): `None`, `False`, `0`, `""`, `[]` and
`\x7b\x7d` are falsy; everything else (including builtin functions) is truthy. -/
def PyVal.isTruthy : PyVal → Bool
  | .none => false
  | .bool b => b
  | .int n => n != 0
  | .str s => s != ""
  | .list xs => !xs.isEmpty
  | .dict kvs => !kvs.isEmpty
  | .builtin _ => true

/-- A single-quote character, used by Python `repr` of strings. -/
def squote : String := String.singleton (Char.ofNat 39)

/-- Comma-separated rendering, as Python uses between container elements. -/
def commaSep : List String → String
  | [] => ""
  | [x] => x
  | x :: y :: xs => x ++ ", " ++ commaSep (y :: xs)

mutual
/-- Model of Python `repr`. -/
def PyVal.pyRepr : PyVal → String
  | .none => "None"
  | .bool b => if b then "True" else "False"
  | .int n => toString n
  | .str s => squote ++ s ++ squote
  | .list xs => "[" ++ commaSep (pyReprList xs) ++ "]"
  | .dict kvs => "\x7b" ++ commaSep (pyReprDict kvs) ++ "\x7d"
  | .builtin s => "<built-in function " ++ s ++ ">"

/-- `repr` of each element of a Python list. -/
def pyReprList : List PyVal → List String
  | [] => []
  | x :: xs => PyVal.pyRepr x :: pyReprList xs

/-- `repr` of each key/value pair of a Python dict. -/
def pyReprDict : List (String × PyVal) → List String
  | [] => []
  | (k, v) :: xs =>
      (squote ++ k ++ squote ++ ": " ++ PyVal.pyRepr v) :: pyReprDict xs
end

/-- Model of Python `str(v)`: identity on strings, `repr` otherwise
(containers render their elements with `repr`, as CPython does). -/
def PyVal.pyStr : PyVal → String
  | .str s => s
  | v => v.pyRepr

/-- Association-list lookup, modelling `d[k]` / `d.get(k)` on a Python dict
(first binding wins; the dicts built here never hold duplicate keys). -/
def alistLookup (kvs : List (String × PyVal)) (k : String) : Option PyVal :=
  match kvs with
  | [] => Option.none
  | (k₀, v₀) :: rest => if k₀ = k then some v₀ else alistLookup rest k

/-- Association-list update, modelling `d[k] = v` on a Python dict: replaces
the value in place if the key exists, appends otherwise (Python dicts keep
insertion order). -/
def alistInsert (kvs : List (String × PyVal)) (k : String) (v : PyVal) :
    List (String × PyVal) :=
  match kvs with
  | [] => [(k, v)]
  | (k₀, v₀) :: rest =>
      if k₀ = k then (k₀, v) :: rest else (k₀, v₀) :: alistInsert rest k v

/-- Model of Python `result_json.get(key)`: on a dict, the bound value or
`None`; on any other value, `AttributeError` (no `.get` attribute). -/
def pyGet (v : PyVal) (k : String) : Except PyErr PyVal :=
  match v with
  | .dict kvs =>
      match alistLookup kvs k with
      | some w => .ok w
      | Option.none => .ok .none
  | _ => .error .attributeError

/-- The opening-brace character. -/
def lbrace : Char := Char.ofNat 123

/-- The closing-brace character. -/
def rbrace : Char := Char.ofNat 125

/-- The single-quote character. -/
def squoteChar : Char := Char.ofNat 39

/-- The double-quote character. -/
def dquoteChar : Char := Char.ofNat 34

/-- Split a replacement field off a format string: the characters before the
first closing brace, and the characters after it.  `none` when the field is
never closed (CPython: ValueError, expected closing brace). -/
def splitAtRBrace : List Char → Option (List Char × List Char)
  | [] => Option.none
  | c :: rest =>
      if c = rbrace then some ([], rest)
      else
        match splitAtRBrace rest with
        | some (a, b) => some (c :: a, b)
        | Option.none => Option.none

/-- Split a list at the first occurrence of `sep`: `none` when absent. -/
def splitAtChar (sep : Char) : List Char → Option (List Char × List Char)
  | [] => Option.none
  | c :: rest =>
      if c = sep then some ([], rest)
      else
        match splitAtChar sep rest with
        | some (a, b) => some (c :: a, b)
        | Option.none => Option.none

/-- Leading run of characters allowed in a `str.format` argument name
(everything up to an attribute dot or an item-access bracket). -/
def takeArgName : List Char → List Char × List Char
  | [] => ([], [])
  | c :: rest =>
      if c = '.' || c = '[' then ([], c :: rest)
      else
        let (a, b) := takeArgName rest
        (c :: a, b)

/-- Digits of a decimal numeral to a natural number. -/
def digitsToNat (cs : List Char) : Nat :=
  cs.foldl (fun acc c => acc * 10 + (c.toNat - 48)) 0

/-- Model of `str.format`'s trailing accessors on a looked-up value
(`.attr`, `[item]`).  Attribute access on the JSON-like values this engine
substitutes has no modelled attributes and is an `AttributeError`; item
access indexes lists by decimal position and dicts by the literal key text,
as CPython's formatter does. -/
def applyTrailers (fuel : Nat) (v : PyVal) (cs : List Char) : Except PyErr PyVal :=
  match fuel with
  | 0 => .error .valueError
  | fuel + 1 =>
      match cs with
      | [] => .ok v
      | c :: rest =>
          if c = '.' then .error .attributeError
          else if c = '[' then
            match splitAtChar ']' rest with
            | Option.none => .error .valueError
            | some (item, rest2) =>
                if item ≠ [] && item.all Char.isDigit then
                  match v with
                  | .list xs =>
                      match xs.get? (digitsToNat item) with
                      | some w => applyTrailers fuel w rest2
                      | Option.none => .error .indexError
                  | .dict _ => .error .keyError
                  | _ => .error .typeError
                else
                  match v with
                  | .dict kvs =>
                      match alistLookup kvs (String.mk item) with
                      | some w => applyTrailers fuel w rest2
                      | Option.none => .error .keyError
                  | .list _ => .error .typeError
                  | _ => .error .typeError
          else .error .valueError

/-- Model of a `str.format` conversion flag (`!s`, `!r`, `!a`); any other
conversion text is a ValueError, as in CPython. -/
def convApply (conv : Option (List Char)) (v : PyVal) : Except PyErr PyVal :=
  match conv with
  | Option.none => .ok v
  | some [c] =>
      if c = 's' then .ok (.str v.pyStr)
      else if c = 'r' || c = 'a' then .ok (.str v.pyRepr)
      else .error .valueError
  | some _ => .error .valueError

/-- Model of one `str.format` replacement field applied to keyword arguments
`ph` (the engine always calls `format(**placeholders)`, never with positional
arguments).  An empty or all-digits argument name is a positional reference
and raises IndexError, since no positional arguments are passed; a missing
keyword raises KeyError; `.attr` / `[item]` trailers follow `applyTrailers`.
Model restriction: a non-empty format spec (text after a top-level colon)
is not rendered and is mapped to ValueError; no theorem below depends on
such fields. -/
def formatField (ph : List (String × PyVal)) (content : List Char) :
    Except PyErr String := do
  let (namePart, specPart) :=
    match splitAtChar ':' content with
    | some (a, b) => (a, some b)
    | Option.none => (content, Option.none)
  let (nameExpr, conv) :=
    match splitAtChar '!' namePart with
    | some (a, b) => (a, some b)
    | Option.none => (namePart, Option.none)
  match specPart with
  | some (_ :: _) => .error .valueError
  | _ => do
    let (argName, trailer) := takeArgName nameExpr
    if argName.isEmpty || argName.all Char.isDigit then
      .error .indexError
    else
      match alistLookup ph (String.mk argName) with
      | Option.none => .error .keyError
      | some v => do
          let v ← applyTrailers (trailer.length + 1) v trailer
          let v ← convApply conv v
          .ok v.pyStr

/-- Model of CPython `str.format(**ph)` over the characters of the template:
literal text is copied; doubled braces are escapes; a lone closing brace or
an unterminated field is a ValueError; each well-formed field is rendered by
`formatField`. -/
def pyFormatAux (ph : List (String × PyVal)) : Nat → List Char → Except PyErr String
  | 0, _ => .error .valueError
  | _ + 1, [] => .ok ""
  | _ + 1, [c] =>
      if c = lbrace then .error .valueError
      else if c = rbrace then .error .valueError
      else .ok (String.singleton c)
  | fuel + 1, c :: c2 :: rest2 =>
      if c = lbrace then
        if c2 = lbrace then do
          let t ← pyFormatAux ph fuel rest2
          .ok (String.singleton lbrace ++ t)
        else
          match splitAtRBrace (c2 :: rest2) with
          | Option.none => .error .valueError
          | some (content, rest3) => do
              let f ← formatField ph content
              let t ← pyFormatAux ph fuel rest3
              .ok (f ++ t)
      else if c = rbrace then
        if c2 = rbrace then do
          let t ← pyFormatAux ph fuel rest2
          .ok (String.singleton rbrace ++ t)
        else .error .valueError
      else do
        let t ← pyFormatAux ph fuel (c2 :: rest2)
        .ok (String.singleton c ++ t)

/-- Model of `template.format(**ph)` on a whole string.  The fuel bounds the
recursion depth structurally; every recursive step strictly shortens the
character list (`splitAtRBrace_length`), so one unit beyond the length is
never exhausted. -/
def pyFormat (s : String) (ph : List (String × PyVal)) : Except PyErr String :=
  pyFormatAux ph (s.data.length + 1) s.data

mutual
/-- Embedding of `_format_values` (helpers/obtener_info_riesgos.py, lines
61-80): recursively rebuild dicts and lists; on a string, attempt
`str.format(**placeholders)` and return the original string when that raises
KeyError — any other exception propagates (only KeyError is caught); any
other value passes through unchanged. -/
def _format_values (obj : PyVal) (ph : List (String × PyVal)) :
    Except PyErr PyVal :=
  match obj with
  | .dict kvs => do
      let kvs2 ← formatDict kvs ph
      .ok (.dict kvs2)
  | .list xs => do
      let xs2 ← formatList xs ph
      .ok (.list xs2)
  | .str s =>
      match pyFormat s ph with
      | .ok r => .ok (.str r)
      | .error .keyError => .ok (.str s)
      | .error e => .error e
  | v => .ok v

/-- `_format_values` mapped over the elements of a list. -/
def formatList (xs : List PyVal) (ph : List (String × PyVal)) :
    Except PyErr (List PyVal) :=
  match xs with
  | [] => .ok []
  | x :: rest => do
      let x2 ← _format_values x ph
      let rest2 ← formatList rest ph
      .ok (x2 :: rest2)

/-- `_format_values` mapped over the values of a dict (keys untouched). -/
def formatDict (kvs : List (String × PyVal)) (ph : List (String × PyVal)) :
    Except PyErr (List (String × PyVal)) :=
  match kvs with
  | [] => .ok []
  | (k, v) :: rest => do
      let v2 ← _format_values v ph
      let rest2 ← formatDict rest ph
      .ok ((k, v2) :: rest2)
end

/-- Drop leading ASCII whitespace. -/
def skipWs : List Char → List Char
  | [] => []
  | c :: rest =>
      if c = ' ' || c = '\t' || c = '\n' || c = '\r' then skipWs rest
      else c :: rest

/-- Model of `str.strip()`: drop leading and trailing ASCII whitespace. -/
def pyStrip (s : String) : String :=
  String.mk ((skipWs ((skipWs s.data).reverse)).reverse)

/-- Leading run of decimal digits and the remainder. -/
def takeDigits : List Char → List Char × List Char
  | [] => ([], [])
  | c :: rest =>
      if c.isDigit then
        let (a, b) := takeDigits rest
        (c :: a, b)
      else ([], c :: rest)

/-- If `w` is a prefix of `cs`, the remainder after it. -/
def dropWord : List Char → List Char → Option (List Char)
  | [], cs => some cs
  | w :: ws, c :: cs => if c = w then dropWord ws cs else Option.none
  | _ :: _, [] => Option.none

/-- A quoted string literal body up to the closing quote `q` (escape
sequences are outside the modelled subset: a backslash is an ordinary
character). -/
def parseStrLit (q : Char) : List Char → Option (String × List Char)
  | [] => Option.none
  | c :: rest =>
      if c = q then some ("", rest)
      else
        match parseStrLit q rest with
        | some (s, r) => some (String.singleton c ++ s, r)
        | Option.none => Option.none

mutual
/-- Model of the Python-literal grammar accepted by `ast.literal_eval`,
restricted to the JSON-like subset this configuration store holds:
`None`/`True`/`False`, decimal integers, quoted strings, lists, and dicts
with string-literal keys.  Anything else (operators, calls, names, floats,
sets, tuples, non-string dict keys) fails to parse; `ast.literal_eval`
raises `ValueError`/`SyntaxError` on the non-literal ones among them and
the caller maps that failure to an empty dict. -/
def parseLit : Nat → List Char → Option (PyVal × List Char)
  | 0, _ => Option.none
  | fuel + 1, cs =>
      match skipWs cs with
      | [] => Option.none
      | c :: rest =>
          if c = squoteChar || c = dquoteChar then
            match parseStrLit c rest with
            | some (s, r) => some (.str s, r)
            | Option.none => Option.none
          else if c.isDigit then
            let (ds, r) := takeDigits (c :: rest)
            some (.int (Int.ofNat (digitsToNat ds)), r)
          else if c = '-' then
            match rest with
            | d :: _ =>
                if d.isDigit then
                  let (ds, r) := takeDigits rest
                  some (.int (-(Int.ofNat (digitsToNat ds))), r)
                else Option.none
            | [] => Option.none
          else if c = '[' then
            match parseElems fuel rest with
            | some (vs, r) => some (.list vs, r)
            | Option.none => Option.none
          else if c = lbrace then parseEntries fuel rest
          else
            match dropWord "None".data (c :: rest) with
            | some r => some (.none, r)
            | Option.none =>
                match dropWord "True".data (c :: rest) with
                | some r => some (.bool true, r)
                | Option.none =>
                    match dropWord "False".data (c :: rest) with
                    | some r => some (.bool false, r)
                    | Option.none => Option.none

/-- Elements of a list literal, after the opening bracket. -/
def parseElems : Nat → List Char → Option (List PyVal × List Char)
  | 0, _ => Option.none
  | fuel + 1, cs =>
      match skipWs cs with
      | [] => Option.none
      | c :: rest =>
          if c = ']' then some ([], rest)
          else
            match parseLit fuel (c :: rest) with
            | Option.none => Option.none
            | some (v, r) =>
                match skipWs r with
                | ',' :: r2 =>
                    match parseElems fuel r2 with
                    | some (vs, r3) => some (v :: vs, r3)
                    | Option.none => Option.none
                | ']' :: r2 => some ([v], r2)
                | _ => Option.none

/-- Entries of a dict literal, after the opening brace. -/
def parseEntries : Nat → List Char → Option (PyVal × List Char)
  | 0, _ => Option.none
  | fuel + 1, cs =>
      match skipWs cs with
      | [] => Option.none
      | c :: rest =>
          if c = rbrace then some (.dict [], rest)
          else if c = squoteChar || c = dquoteChar then
            match parseStrLit c rest with
            | Option.none => Option.none
            | some (k, r) =>
                match skipWs r with
                | ':' :: r2 =>
                    match parseLit fuel r2 with
                    | Option.none => Option.none
                    | some (v, r3) =>
                        match skipWs r3 with
                        | ',' :: r4 =>
                            match parseEntries fuel r4 with
                            | some (.dict kvs, r5) => some (.dict ((k, v) :: kvs), r5)
                            | _ => Option.none
                        | c5 :: r5 =>
                            if c5 = rbrace then some (.dict [(k, v)], r5)
                            else Option.none
                        | [] => Option.none
                | _ => Option.none
          else Option.none
end

/-- Model of `ast.literal_eval` on a whole string: the literal must span the
entire input (modulo surrounding whitespace); `none` models the
`ValueError`/`SyntaxError` outcomes the caller catches. -/
def ast_literal_eval (s : String) : Option PyVal :=
  match parseLit (2 * s.length + 2) s.data with
  | some (v, rest) => if (skipWs rest).isEmpty then some v else Option.none
  | Option.none => Option.none

/-- Embedding of `_parse_mapping` (helpers/obtener_info_riesgos.py, lines
45-59): a dict passes through; a non-blank string is handed to
`ast.literal_eval`, whose parse failures are caught and mapped to an empty
dict; everything else yields an empty dict.  Note the parse result is
returned as-is, whatever literal it is. -/
def _parse_mapping (value : PyVal) : PyVal :=
  match value with
  | .dict kvs => .dict kvs
  | .str s =>
      if pyStrip s ≠ "" then
        match ast_literal_eval s with
        | some v => v
        | Option.none => .dict []
      else .dict []
  | _ => .dict []

/-- Abstract syntax of the extraction expressions fed to `eval`: a bound
name, a literal, or an item access `e[k]` — the shapes the configuration
rows use to pick fields out of decoded responses. -/
inductive PyExpr : Type where
  | name : String → PyExpr
  | lit : PyVal → PyExpr
  | subscript : PyExpr → PyExpr → PyExpr
deriving DecidableEq

/-- A few names resolvable from the interpreter's builtins namespace
(`open`, `__import__`, ... — the list is far larger in CPython; any member
suffices to witness ambient access). -/
def pyBuiltinNames : List String :=
  ["open", "eval", "exec", "getattr", "globals", "input", "print", "__import__"]

/-- Item access `v[kv]`, as `eval` performs it: dict by string key (missing
key raises KeyError), list and str by integer index with Python's negative
indexing (out of range raises IndexError), anything else TypeError. -/
def pyIndex (v kv : PyVal) : Except PyErr PyVal :=
  match v, kv with
  | .dict kvs, .str k =>
      match alistLookup kvs k with
      | some w => .ok w
      | Option.none => .error .keyError
  | .list xs, .int i =>
      let j : Int := if i < 0 then i + xs.length else i
      if h : 0 ≤ j ∧ j.toNat < xs.length then .ok (xs.get ⟨j.toNat, h.2⟩)
      else .error .indexError
  | .str s, .int i =>
      let cs := s.data
      let j : Int := if i < 0 then i + cs.length else i
      if h : 0 ≤ j ∧ j.toNat < cs.length then
        .ok (.str (String.singleton (cs.get ⟨j.toNat, h.2⟩)))
      else .error .indexError
  | _, _ => .error .typeError

/-- Model of CPython `eval(expr, globals)` name resolution and evaluation
for the expression shapes in `PyExpr`.  Crucially, when the globals mapping
passed to `eval` does not bind the key `__builtins__`, CPython inserts the
builtins module into it before evaluating, so a name missing from `globals`
still resolves in the builtins namespace; only then is NameError raised.
The engine calls `eval(expression, ("result": result))` with no
`__builtins__` key, so builtins are reachable. -/
def pyEval (globals : List (String × PyVal)) : PyExpr → Except PyErr PyVal
  | .name n =>
      match alistLookup globals n with
      | some v => .ok v
      | Option.none =>
          if pyBuiltinNames.contains n then .ok (.builtin n)
          else .error .nameError
  | .lit v => .ok v
  | .subscript e k => do
      let v ← pyEval globals e
      let kv ← pyEval globals k
      pyIndex v kv

/-- Embedding of `_safe_eval_extraction` (helpers/obtener_info_riesgos.py,
lines 82-95).  The textual expression argument is represented by its parsed
AST: `none` models a non-string, empty or whitespace-only expression (the
early `return None` path); `some e` models a non-blank expression parsing
to `e` (a truthy but unparseable expression, whose `eval` raises
SyntaxError into the `except`, behaves like any expression whose
evaluation fails and is subsumed by e.g. `some (.name m)` for an unbound
`m`).  Every evaluation failure is caught and mapped to `None`. -/
def _safe_eval_extraction (expression : Option PyExpr) (result : PyVal) :
    Option PyVal :=
  match expression with
  | Option.none => Option.none
  | some e =>
      match pyEval [("result", result)] e with
      | .ok v => some v
      | .error _ => Option.none

/-- `None` for a failed extraction, the value otherwise (the shape in which
extraction results are stored into dicts). -/
def optPy : Option PyVal → PyVal
  | some v => v
  | Option.none => .none

mutual
/-- Model of the JSON grammar accepted by `json.loads`, restricted to the
subset the risk pipeline exchanges: `null`/`true`/`false`, decimal
integers, double-quoted strings (escapes unmodelled), arrays, and objects.
Floats are outside the model. -/
def jsonParse : Nat → List Char → Option (PyVal × List Char)
  | 0, _ => Option.none
  | fuel + 1, cs =>
      match skipWs cs with
      | [] => Option.none
      | c :: rest =>
          if c = dquoteChar then
            match parseStrLit c rest with
            | some (s, r) => some (.str s, r)
            | Option.none => Option.none
          else if c.isDigit then
            let (ds, r) := takeDigits (c :: rest)
            some (.int (Int.ofNat (digitsToNat ds)), r)
          else if c = '-' then
            match rest with
            | d :: _ =>
                if d.isDigit then
                  let (ds, r) := takeDigits rest
                  some (.int (-(Int.ofNat (digitsToNat ds))), r)
                else Option.none
            | [] => Option.none
          else if c = '[' then
            match jsonElems fuel rest with
            | some (vs, r) => some (.list vs, r)
            | Option.none => Option.none
          else if c = lbrace then jsonEntries fuel rest
          else
            match dropWord "null".data (c :: rest) with
            | some r => some (.none, r)
            | Option.none =>
                match dropWord "true".data (c :: rest) with
                | some r => some (.bool true, r)
                | Option.none =>
                    match dropWord "false".data (c :: rest) with
                    | some r => some (.bool false, r)
                    | Option.none => Option.none

/-- Elements of a JSON array, after the opening bracket. -/
def jsonElems : Nat → List Char → Option (List PyVal × List Char)
  | 0, _ => Option.none
  | fuel + 1, cs =>
      match skipWs cs with
      | [] => Option.none
      | c :: rest =>
          if c = ']' then some ([], rest)
          else
            match jsonParse fuel (c :: rest) with
            | Option.none => Option.none
            | some (v, r) =>
                match skipWs r with
                | ',' :: r2 =>
                    match jsonElems fuel r2 with
                    | some (vs, r3) => some (v :: vs, r3)
                    | Option.none => Option.none
                | ']' :: r2 => some ([v], r2)
                | _ => Option.none

/-- Members of a JSON object, after the opening brace. -/
def jsonEntries : Nat → List Char → Option (PyVal × List Char)
  | 0, _ => Option.none
  | fuel + 1, cs =>
      match skipWs cs with
      | [] => Option.none
      | c :: rest =>
          if c = rbrace then some (.dict [], rest)
          else if c = dquoteChar then
            match parseStrLit c rest with
            | Option.none => Option.none
            | some (k, r) =>
                match skipWs r with
                | ':' :: r2 =>
                    match jsonParse fuel r2 with
                    | Option.none => Option.none
                    | some (v, r3) =>
                        match skipWs r3 with
                        | ',' :: r4 =>
                            match jsonEntries fuel r4 with
                            | some (.dict kvs, r5) => some (.dict ((k, v) :: kvs), r5)
                            | _ => Option.none
                        | c5 :: r5 =>
                            if c5 = rbrace then some (.dict [(k, v)], r5)
                            else Option.none
                        | [] => Option.none
                | _ => Option.none
          else Option.none
end

/-- Model of `json.loads` on a whole string; `none` models
`json.JSONDecodeError`. -/
def json_loads (s : String) : Option PyVal :=
  match jsonParse (2 * s.length + 2) s.data with
  | some (v, rest) => if (skipWs rest).isEmpty then some v else Option.none
  | Option.none => Option.none

/-- Model of `str.find(ch)`: index of the first occurrence, `-1` if absent. -/
def pyFindChar (cs : List Char) (c : Char) : Int :=
  match cs.findIdx? (· = c) with
  | some i => Int.ofNat i
  | Option.none => -1

/-- Model of `str.rfind(ch)`: index of the last occurrence, `-1` if absent. -/
def pyRFindChar (cs : List Char) (c : Char) : Int :=
  match cs.reverse.findIdx? (· = c) with
  | some i => Int.ofNat (cs.length - 1 - i)
  | Option.none => -1

/-- Model of the slice `s[a : b]` for non-negative bounds. -/
def pySlice (cs : List Char) (a b : Nat) : List Char :=
  (cs.take b).drop a

/-- Embedding of the response-scanning tail of `_procesar_con_gemini`
(helpers/obtener_info_riesgos.py, lines 142-165): isolate the span from the
first opening brace to the last closing brace; if there is no such span or
it is empty the result is `None`; parse it as JSON (a decode error is
caught, yielding `None`); return the `riesgos` field only when the parse
produced an object whose `riesgos` member is a list. -/
def extraccion_riesgos_texto (raw : String) : Option (List PyVal) :=
  if pyFindChar raw.data lbrace = -1 then Option.none
  else if pyRFindChar raw.data rbrace = -1 then Option.none
  else if (pySlice raw.data (pyFindChar raw.data lbrace).toNat
      ((pyRFindChar raw.data rbrace).toNat + 1)).isEmpty then Option.none
  else
    match json_loads (String.mk (pySlice raw.data (pyFindChar raw.data lbrace).toNat
        ((pyRFindChar raw.data rbrace).toNat + 1))) with
    | some (.dict kvs) =>
        match alistLookup kvs "riesgos" with
        | some (.list l) => some l
        | _ => Option.none
    | _ => Option.none

/-- Bytes of a decoded attachment (opaque to the engine). -/
abbrev Bytes := List Nat

/-- Embedding of `_procesar_con_gemini` (helpers/obtener_info_riesgos.py,
lines 113-169).  The effectful prefix — `vertexai.init`, model load,
`pd.read_excel`, CSV rendering, `generate_content`, `response.text` — is
modelled by the oracle `geminiText`, whose `ok` value is the model's raw
textual response and whose `error` is any exception raised in that prefix;
the enclosing handler converts every such exception to `None`, and the
response scanning is `extraccion_riesgos_texto`. -/
def _procesar_con_gemini (geminiText : PyVal → Bytes → Except Unit String)
    (prompt : PyVal) (excel_bytes : Bytes) : Option (List PyVal) :=
  match geminiText prompt excel_bytes with
  | .error _ => Option.none
  | .ok raw => extraccion_riesgos_texto raw

/-- Embedding of `_excel_bytes_from_result` (helpers/obtener_info_riesgos.py,
lines 97-111): read `adjunto` via `.get` (AttributeError on a non-dict
response propagates), and when it is a non-blank string, base64-decode it
through the oracle `b64` (`none` models binascii errors, which are caught
and yield `None`). -/
def _excel_bytes_from_result (b64 : String → Option Bytes) (result_json : PyVal) :
    Except PyErr (Option Bytes) := do
  let adjunto ← pyGet result_json "adjunto"
  match adjunto with
  | .str s =>
      if pyStrip s ≠ "" then
        match b64 s with
        | some bs => .ok (some bs)
        | Option.none => .ok Option.none
      else .ok Option.none
  | _ => .ok Option.none

/-- Model of `s.upper()` on a cell that should hold a string: a non-string
cell (e.g. a SQL NULL read back as `None`) has no `.upper` and raises
AttributeError. -/
def pyUpper (v : PyVal) : Except PyErr String :=
  match v with
  | .str s => .ok (String.mk (s.data.map Char.toUpper))
  | _ => .error .attributeError

/-- Model of `int(v)`: integers pass through, booleans widen, a string must
be a (stripped) decimal numeral else ValueError; other types TypeError. -/
def pyInt (v : PyVal) : Except PyErr Int :=
  match v with
  | .int n => .ok n
  | .bool b => .ok (if b then 1 else 0)
  | .str s =>
      let cs := (pyStrip s).data
      match cs with
      | '-' :: ds =>
          if ds ≠ [] && ds.all Char.isDigit then
            .ok (-(Int.ofNat (digitsToNat ds)))
          else .error .valueError
      | ds =>
          if ds ≠ [] && ds.all Char.isDigit then
            .ok (Int.ofNat (digitsToNat ds))
          else .error .valueError
  | _ => .error .typeError

/-- Model of `sep.join(parts)`. -/
def pyJoin (sep : String) : List String → String
  | [] => ""
  | [x] => x
  | x :: y :: rest => x ++ sep ++ pyJoin sep (y :: rest)

/-- Lexicographic order on character lists by code point (Python string
ordering, as pandas sorts group keys). -/
def charListLe : List Char → List Char → Bool
  | [], _ => true
  | _ :: _, [] => false
  | a :: as, b :: bs =>
      if a.toNat < b.toNat then true
      else if b.toNat < a.toNat then false
      else charListLe as bs

-- ===========================================================================
-- utils/crud_postgres.py
-- ===========================================================================

/-- One row prepared for insertion into `ms_resultados` (crud_postgres.py,
lines 177-183). -/
structure Registro where
  RIESGO_MOTOR_ID : String
  CASO_ID : PyVal
  TIPO_DOCUMENTO_ASEGURADO : PyVal
  NUMERO_DOCUMENTO_ASEGURADO : Option Int
  NOMBRE_ASEGURADO : PyVal
deriving DecidableEq

/-- Database statements the persistence layer issues, in order. -/
inductive DbOp : Type where
  | insert : List Registro → DbOp
  | commit : DbOp
  | rollback : DbOp
  | statusUpdate : PyVal → DbOp
deriving DecidableEq

/-- Embedding of the `RIESGO_MOTOR_ID` derivation (crud_postgres.py, lines
170-174): collect case id, product, subproduct and movement codes, document
type and number, append the plate only when truthy, then drop every falsy
part (`filter(None, ...)`) and join the `str()` images with a hyphen. -/
def riesgo_motor_id (caso_id : PyVal) (codigo_producto codigo_subproducto : Int)
    (codigo_movimiento : String) (tipo_documento numero_documento placa : PyVal) :
    String :=
  pyJoin "-"
    ((([caso_id, .int codigo_producto, .int codigo_subproducto,
        .str codigo_movimiento, tipo_documento, numero_documento] ++
       (if placa.isTruthy then [placa] else [])).filter PyVal.isTruthy).map
      PyVal.pyStr)

/-- The per-risk record preparation loop of `insertar_resultados_riesgos`
(crud_postgres.py, lines 160-184): `.get` the identifying fields (a
non-dict risk raises AttributeError), derive the dedup key and convert the
document number with `int(...)` when truthy — a non-numeric value raises
ValueError, which propagates before any database statement. -/
def buildRegistros (caso_id : PyVal) (codigo_producto codigo_subproducto : Int)
    (codigo_movimiento : String) : List PyVal → Except PyErr (List Registro)
  | [] => .ok []
  | riesgo :: rest => do
      let tipo_documento ← pyGet riesgo "TIPO_DOCUMENTO"
      let numero_documento ← pyGet riesgo "NUMERO_DOCUMENTO"
      let placa ← pyGet riesgo "PLACA"
      let rmid := riesgo_motor_id caso_id codigo_producto codigo_subproducto
        codigo_movimiento tipo_documento numero_documento placa
      let num ←
        if numero_documento.isTruthy then do
          let n ← pyInt numero_documento
          pure (some n)
        else pure Option.none
      let nombre ← pyGet riesgo "NOMBRE"
      let rs ← buildRegistros caso_id codigo_producto codigo_subproducto
        codigo_movimiento rest
      .ok (⟨rmid, caso_id, tipo_documento, num, nombre⟩ :: rs)

/-- Embedding of `actualizar_estado_caso` (crud_postgres.py, lines 221-246):
issue the status UPDATE, commit on success, roll back and re-raise on
failure.  The oracle `statusDb` is the outcome of the UPDATE/commit pair. -/
def actualizar_estado_caso (statusDb : Except Unit Unit) (caso_id : PyVal) :
    Except PyErr Unit × List DbOp :=
  match statusDb with
  | .ok _ => (.ok (), [.statusUpdate caso_id, .commit])
  | .error _ => (.error .dbError, [.statusUpdate caso_id, .rollback])

/-- Embedding of `insertar_resultados_riesgos` (crud_postgres.py, lines
134-218): nothing happens on an empty risk list; record preparation errors
propagate before any statement; the INSERT (`dbInsert` models the
execute/commit pair) rolls back and re-raises on failure; only after a
successful insert does `actualizar_estado_caso` run.  The second component
is the ordered database-operation trace. -/
def insertar_resultados_riesgos (dbInsert : List Registro → Except Unit Unit)
    (statusDb : Except Unit Unit) (riesgos : List PyVal) (caso_id : PyVal)
    (codigo_producto codigo_subproducto : Int) (codigo_movimiento : String) :
    Except PyErr Unit × List DbOp :=
  if riesgos.isEmpty then (.ok (), [])
  else
    match buildRegistros caso_id codigo_producto codigo_subproducto
        codigo_movimiento riesgos with
    | .error e => (.error e, [])
    | .ok registros_a_insertar =>
        if registros_a_insertar.isEmpty then (.ok (), [])
        else
          match dbInsert registros_a_insertar with
          | .error _ => (.error .dbError, [.insert registros_a_insertar, .rollback])
          | .ok _ =>
              let (res, tr) := actualizar_estado_caso statusDb caso_id
              (res, [DbOp.insert registros_a_insertar, DbOp.commit] ++ tr)

-- ===========================================================================
-- Source configuration rows and the HTTP boundary
-- ===========================================================================

/-- One configuration row of `ms_identificacion_riesgos`, as the orchestrators
read it from the DataFrame.  `FUENTE` is `none` for a SQL NULL; cells are
`PyVal` (`PyVal.none` for NULL).  `EXTRACCION` is represented by its parsed
AST as in `_safe_eval_extraction`. -/
structure ConfigRow where
  FUENTE : Option String
  URL : PyVal
  METODO : PyVal
  HEADER : PyVal
  PAYLOAD : PyVal
  PARAMS : PyVal
  VARIABLE : PyVal
  EXTRACCION : Option PyExpr
  PROMPT : PyVal

/-- The request handed to `httpx` by `_request_por_fuente` after
placeholder substitution and the GET/non-GET body-vs-params selection. -/
structure HttpRequest where
  metodo : String
  url : PyVal
  headers : PyVal
  jsonBody : PyVal
  params : PyVal
deriving DecidableEq

/-- Embedding of `_request_por_fuente` (helpers/obtener_info_riesgos.py,
lines 175-213).  Everything before the `try` can raise and propagates to
the orchestrator: `.upper()` on the method cell, then placeholder
substitution of URL, headers, payload and params (in that order).  The
`try` block — transport, `raise_for_status`, JSON decode — is the oracle
`http`: `some v` is a decoded JSON body, `none` any caught failure. -/
def _request_por_fuente (http : HttpRequest → Option PyVal) (fuente_info : ConfigRow)
    (placeholders : List (String × PyVal)) : Except PyErr (Option PyVal) := do
  let metodo ← pyUpper fuente_info.METODO
  let url ← _format_values fuente_info.URL placeholders
  let headers ← _format_values (_parse_mapping fuente_info.HEADER) placeholders
  let payload ← _format_values (_parse_mapping fuente_info.PAYLOAD) placeholders
  let params ← _format_values (_parse_mapping fuente_info.PARAMS) placeholders
  let jsonBody := if metodo ≠ "GET" && payload.isTruthy then payload else .none
  let paramsArg := if metodo = "GET" && params.isTruthy then params else .none
  .ok (http ⟨metodo, url, headers, jsonBody, paramsArg⟩)

-- ===========================================================================
-- Individual orchestration (obtener_info_riesgo_individual)
-- ===========================================================================

/-- Lookup in a Python-dict with `PyVal` keys (`variables_dict`). -/
def pvLookup (kvs : List (PyVal × PyVal)) (k : PyVal) : Option PyVal :=
  match kvs with
  | [] => Option.none
  | (k₀, v₀) :: rest => if k₀ = k then some v₀ else pvLookup rest k

/-- Update in a Python-dict with `PyVal` keys, insertion order preserved. -/
def pvInsert (kvs : List (PyVal × PyVal)) (k : PyVal) (v : PyVal) :
    List (PyVal × PyVal) :=
  match kvs with
  | [] => [(k, v)]
  | (k₀, v₀) :: rest =>
      if k₀ = k then (k₀, v) :: rest else (k₀, v₀) :: pvInsert rest k v

/-- Model of pandas `Series.unique`: distinct values in first-appearance
order. -/
def uniqueAux (seen : List PyVal) : List PyVal → List PyVal
  | [] => []
  | x :: xs => if x ∈ seen then uniqueAux seen xs else x :: uniqueAux (x :: seen) xs

def uniqueVals (l : List PyVal) : List PyVal := uniqueAux [] l

/-- Insertion into a lexicographically sorted list of strings. -/
def insertSorted (s : String) : List String → List String
  | [] => [s]
  | x :: xs => if charListLe s.data x.data then s :: x :: xs else x :: insertSorted s xs

/-- Distinct strings in first-appearance order. -/
def uniqueStringsAux (seen : List String) : List String → List String
  | [] => []
  | x :: xs =>
      if x ∈ seen then uniqueStringsAux seen xs
      else x :: uniqueStringsAux (x :: seen) xs

def uniqueStrings (l : List String) : List String := uniqueStringsAux [] l

/-- Model of the group keys of `df.groupby('FUENTE')`: the distinct non-null
source names, in sorted order (pandas sorts group keys and drops nulls). -/
def groupKeys (rows : List ConfigRow) : List String :=
  (uniqueStrings (rows.filterMap ConfigRow.FUENTE)).foldr insertSorted []

/-- Embedding of the nested task `_procesar_fuente_individual`
(helpers/obtener_info_riesgos.py, lines 236-251) acting on `variables_dict`:
call the source once using the group's first row; when the call returns a
truthy decoded body, evaluate each row's extraction into its variable.  An
exception inside the task (placeholder substitution raising before the
request) is swallowed by `asyncio.gather(..., return_exceptions=True)`, so
it leaves `variables_dict` untouched; a `None`/falsy body likewise makes no
assignment. -/
def extraerVariables (df_config : List ConfigRow) (resultado_api : PyVal)
    (variables_dict : List (PyVal × PyVal)) : List (PyVal × PyVal) :=
  df_config.foldl (fun vd fila =>
    if fila.VARIABLE.isTruthy && fila.EXTRACCION.isSome then
      pvInsert vd fila.VARIABLE
        (optPy (_safe_eval_extraction fila.EXTRACCION resultado_api))
    else vd) variables_dict

/-- The body of `_procesar_fuente_individual` after its HTTP call returned
(`resultado_api`): a truthy decoded body triggers the extraction loop,
anything else leaves `variables_dict` untouched. -/
def resultadoIndividual (df_config : List ConfigRow)
    (variables_dict : List (PyVal × PyVal)) :
    Option PyVal → List (PyVal × PyVal)
  | Option.none => variables_dict
  | some resultado_api =>
      if resultado_api.isTruthy then
        extraerVariables df_config resultado_api variables_dict
      else variables_dict

/-- Embedding of the nested task body, continued in `resultadoIndividual`
once the call outcome is known. -/
def _procesar_fuente_individual (http : HttpRequest → Option PyVal)
    (placeholders : List (String × PyVal)) (df_config : List ConfigRow)
    (variables_dict : List (PyVal × PyVal)) : List (PyVal × PyVal) :=
  match df_config with
  | [] => variables_dict
  | config_api :: _ =>
      match _request_por_fuente http config_api placeholders with
      | .error _ => variables_dict
      | .ok resultado_api =>
          resultadoIndividual df_config variables_dict resultado_api

/-- The fan-out/fan-in aggregation of `obtener_info_riesgo_individual`
(helpers/obtener_info_riesgos.py, lines 228-261): initialise every declared
variable to `None`, group rows by source, run each group's task and join.
The concurrent schedule is modelled by the deterministic sorted-group
order; with variables owned by single groups (the only case the engine
defines) the join is order-independent. -/
def aggregateIndividual (http : HttpRequest → Option PyVal)
    (df_info_riesgos : List ConfigRow) (consecutivo : Int) :
    List (PyVal × PyVal) :=
  let placeholders := [("consecutivo", PyVal.int consecutivo)]
  let variables_dict :=
    (uniqueVals (df_info_riesgos.map ConfigRow.VARIABLE)).map (fun v => (v, PyVal.none))
  (groupKeys df_info_riesgos).foldl
    (fun vd nombre =>
      _procesar_fuente_individual http placeholders
        (df_info_riesgos.filter (fun r => r.FUENTE = some nombre)) vd)
    variables_dict

/-- `variables_dict` as the Python dict value inserted and returned
(variable cells are strings in this table; `pyStr` renders any other key). -/
def vdToPy (vd : List (PyVal × PyVal)) : PyVal :=
  .dict (vd.map (fun kv => (kv.1.pyStr, kv.2)))

/-- Output of `obtener_info_riesgo_individual`: the value returned to the
caller (or the propagated exception), the aggregated `variables_dict`, and
the database-operation trace. -/
structure IndividualOut where
  result : Except PyErr PyVal
  record : List (PyVal × PyVal)
  dbTrace : List DbOp

/-- Embedding of `obtener_info_riesgo_individual`
(helpers/obtener_info_riesgos.py, lines 215-282): aggregate in parallel,
then resolve the case id (oracle `caso_id`, the `MAX("CASO_ID")` scalar or
`None`) and, when it is truthy, persist through
`insertar_resultados_riesgos` — whose failure propagates; otherwise only a
warning is logged.  Returns `("riesgos": [variables_dict])`. -/
def obtener_info_riesgo_individual (http : HttpRequest → Option PyVal)
    (dbInsert : List Registro → Except Unit Unit) (statusDb : Except Unit Unit)
    (df_info_riesgos : List ConfigRow) (consecutivo : Int) (caso_id : PyVal)
    (codigo_producto codigo_subproducto : Int) (codigo_movimiento : String) :
    IndividualOut :=
  let variables_dict := aggregateIndividual http df_info_riesgos consecutivo
  let riesgos_a_insertar := [vdToPy variables_dict]
  if caso_id.isTruthy then
    match insertar_resultados_riesgos dbInsert statusDb riesgos_a_insertar
        caso_id codigo_producto codigo_subproducto codigo_movimiento with
    | (.ok _, tr) =>
        ⟨.ok (.dict [("riesgos", .list riesgos_a_insertar)]), variables_dict, tr⟩
    | (.error e, tr) => ⟨.error e, variables_dict, tr⟩
  else ⟨.ok (.dict [("riesgos", .list riesgos_a_insertar)]), variables_dict, []⟩

-- ===========================================================================
-- Collective orchestration (obtener_info_riesgos_colectiva)
-- ===========================================================================

/-- One HTTP invocation the collective pipeline actually performed: which
fixed source it addressed and the placeholder mapping in force when the
request was issued. -/
structure CallRecord where
  fuente : String
  placeholders : List (String × PyVal)
deriving DecidableEq

/-- Output of `obtener_info_riesgos_colectiva`: the returned value (or the
propagated exception), the ordered HTTP invocations, and the
database-operation trace. -/
structure ColectivaOut where
  result : Except PyErr PyVal
  calls : List CallRecord
  dbTrace : List DbOp

/-- The configuration rows for one fixed source name, after the
`astype(str).str.strip()` normalisation of the `FUENTE` column
(helpers/obtener_info_riesgos.py, lines 302 and 310; `str(None)` is the
text `"None"`, which matches neither fixed name). -/
def filterFuente (rows : List ConfigRow) (nombre : String) : List ConfigRow :=
  rows.filter (fun r =>
    (match r.FUENTE with
     | some s => pyStrip s
     | Option.none => "None") = nombre)

/-- The empty collective result `("riesgos": [])`. -/
def emptyRiesgos : PyVal := .dict [("riesgos", .list [])]

/-- The body of the `FILENET_GET_DOCUMENTO` iteration of the collective
loop (helpers/obtener_info_riesgos.py, lines 313-348) after its HTTP call
returned: a missing/falsy body falls through to the empty result; a truthy
body with a truthy `PROMPT` routes the decoded attachment through
`_procesar_con_gemini`, and a returned list is persisted (when the case id
is truthy) and returned. -/
def resultadoGetDocumento (b64 : String → Option Bytes)
    (geminiText : PyVal → Bytes → Except Unit String)
    (dbInsert : List Registro → Except Unit Unit) (statusDb : Except Unit Unit)
    (config_api : ConfigRow) (calls : List CallRecord) (caso_id : PyVal)
    (codigo_producto codigo_subproducto : Int) (codigo_movimiento : String) :
    Option PyVal → ColectivaOut
  | Option.none => ⟨.ok emptyRiesgos, calls, []⟩
  | some res =>
      if !res.isTruthy then ⟨.ok emptyRiesgos, calls, []⟩
      else if config_api.PROMPT.isTruthy then
        match _excel_bytes_from_result b64 res with
        | .error e => ⟨.error e, calls, []⟩
        | .ok Option.none => ⟨.ok emptyRiesgos, calls, []⟩
        | .ok (some excel_bytes) =>
            if excel_bytes.isEmpty then ⟨.ok emptyRiesgos, calls, []⟩
            else
              match _procesar_con_gemini geminiText config_api.PROMPT
                  excel_bytes with
              | Option.none => ⟨.ok emptyRiesgos, calls, []⟩
              | some lista_de_riesgos =>
                  if caso_id.isTruthy then
                    match insertar_resultados_riesgos dbInsert statusDb
                        lista_de_riesgos caso_id codigo_producto
                        codigo_subproducto codigo_movimiento with
                    | (.ok _, tr) =>
                        ⟨.ok (.dict [("riesgos", .list lista_de_riesgos)]),
                         calls, tr⟩
                    | (.error e, tr) => ⟨.error e, calls, tr⟩
                  else
                    ⟨.ok (.dict [("riesgos", .list lista_de_riesgos)]),
                     calls, []⟩
      else ⟨.ok emptyRiesgos, calls, []⟩

/-- The `FILENET_GET_DOCUMENTO` iteration of the collective loop
(helpers/obtener_info_riesgos.py, lines 308-348): skipped when
unconfigured; a substitution error propagates; otherwise the call is
recorded and its outcome handled by `resultadoGetDocumento`. -/
def colectiva_get_documento (http : HttpRequest → Option PyVal)
    (b64 : String → Option Bytes) (geminiText : PyVal → Bytes → Except Unit String)
    (dbInsert : List Registro → Except Unit Unit) (statusDb : Except Unit Unit)
    (rows : List ConfigRow) (placeholders : List (String × PyVal))
    (calls : List CallRecord) (caso_id : PyVal)
    (codigo_producto codigo_subproducto : Int) (codigo_movimiento : String) :
    ColectivaOut :=
  match filterFuente rows "FILENET_GET_DOCUMENTO" with
  | [] => ⟨.ok emptyRiesgos, calls, []⟩
  | config_api :: _ =>
      match _request_por_fuente http config_api placeholders with
      | .error e => ⟨.error e, calls, []⟩
      | .ok resultado_api =>
          resultadoGetDocumento b64 geminiText dbInsert statusDb config_api
            (calls ++ [⟨"FILENET_GET_DOCUMENTO", placeholders⟩]) caso_id
            codigo_producto codigo_subproducto codigo_movimiento resultado_api

/-- The `FILENET_LIST_DOCUMENTOS` iteration body after its HTTP call
returned, continued by `proceed` — the rest of the loop — with the possibly
augmented placeholder mapping: a truthy body whose row declares the
`ID_DOC_LISTA_RIESGOS` variable with an extraction writes the extracted
value into the placeholders; any other outcome leaves them unchanged
(`continue`). -/
def resultadoListDocumentos (config_api : ConfigRow)
    (placeholders : List (String × PyVal))
    (proceed : List (String × PyVal) → ColectivaOut) :
    Option PyVal → ColectivaOut
  | Option.none => proceed placeholders
  | some res =>
      if !res.isTruthy then proceed placeholders
      else if config_api.VARIABLE = .str "ID_DOC_LISTA_RIESGOS" &&
          config_api.EXTRACCION.isSome then
        proceed (alistInsert placeholders "id_doc_lista_riesgos"
          (optPy (_safe_eval_extraction config_api.EXTRACCION res)))
      else proceed placeholders

/-- Embedding of `obtener_info_riesgos_colectiva`
(helpers/obtener_info_riesgos.py, lines 284-351): seed the placeholders
with the sequence number and walk the fixed source order.  The
`FILENET_LIST_DOCUMENTOS` iteration: skipped outright when unconfigured; a
substitution error propagates; a falsy result makes the loop `continue` to
the next source; a truthy result, when the row declares the
`ID_DOC_LISTA_RIESGOS` variable with an extraction, writes the extracted
value into the placeholders under `id_doc_lista_riesgos`.  Control then
always proceeds to the `FILENET_GET_DOCUMENTO` iteration. -/
def obtener_info_riesgos_colectiva (http : HttpRequest → Option PyVal)
    (b64 : String → Option Bytes) (geminiText : PyVal → Bytes → Except Unit String)
    (dbInsert : List Registro → Except Unit Unit) (statusDb : Except Unit Unit)
    (df_info_riesgos : List ConfigRow) (consecutivo : Int) (caso_id : PyVal)
    (codigo_producto codigo_subproducto : Int) (codigo_movimiento : String) :
    ColectivaOut :=
  let placeholders : List (String × PyVal) := [("consecutivo", .int consecutivo)]
  match filterFuente df_info_riesgos "FILENET_LIST_DOCUMENTOS" with
  | [] =>
      colectiva_get_documento http b64 geminiText dbInsert statusDb
        df_info_riesgos placeholders [] caso_id codigo_producto
        codigo_subproducto codigo_movimiento
  | config_api :: _ =>
      match _request_por_fuente http config_api placeholders with
      | .error e => ⟨.error e, [], []⟩
      | .ok resultado_api =>
          resultadoListDocumentos config_api placeholders
            (fun ph =>
              colectiva_get_documento http b64 geminiText dbInsert statusDb
                df_info_riesgos ph
                [CallRecord.mk "FILENET_LIST_DOCUMENTOS" placeholders] caso_id
                codigo_producto codigo_subproducto codigo_movimiento)
            resultado_api

-- ===========================================================================
-- Auxiliary specification-side definitions and concrete fixtures
-- ===========================================================================

/-- Whether a value is a Python dict. -/
def PyVal.isDict : PyVal → Bool
  | .dict _ => true
  | _ => false

/-- Whether a value is a Python str. -/
def PyVal.isStr : PyVal → Bool
  | .str _ => true
  | _ => false

/-- The observable part of a source-call outcome that the orchestrators act
on: a decoded body survives only if truthy (`if resultado_api:` /
`if not resultado_api: continue`). -/
def truthyPart : Option PyVal → Option PyVal
  | some v => if v.isTruthy then some v else Option.none
  | Option.none => Option.none

/-- Decidable equality of call outcomes, for concrete evaluation. -/
instance {e a : Type} [DecidableEq e] [DecidableEq a] : DecidableEq (Except e a) :=
  fun x y =>
    match x, y with
    | .ok u, .ok v =>
        if h : u = v then isTrue (congrArg Except.ok h)
        else isFalse (fun hh => h (Except.ok.inj hh))
    | .error u, .error v =>
        if h : u = v then isTrue (congrArg Except.error h)
        else isFalse (fun hh => h (Except.error.inj hh))
    | .ok _, .error _ => isFalse (by intro h; exact Except.noConfusion h)
    | .error _, .ok _ => isFalse (by intro h; exact Except.noConfusion h)

/-- Whether a configuration row writes the variable `v` when its source
call succeeds (`if variable and extraccion:` with `variable = v`). -/
def writesVar (r : ConfigRow) (v : PyVal) : Prop :=
  r.VARIABLE.isTruthy = true ∧ r.EXTRACCION.isSome = true ∧ r.VARIABLE = v

/-- The outcome of the one HTTP call a source group makes: the truthy
decoded body, or `none` for a missing group, a substitution error, a
transport failure, or a falsy body. -/
def resultadoGrupo (http : HttpRequest → Option PyVal)
    (ph : List (String × PyVal)) (g : List ConfigRow) : Option PyVal :=
  match g with
  | [] => Option.none
  | cfg :: _ =>
      match _request_por_fuente http cfg ph with
      | .ok (some res) => if res.isTruthy then some res else Option.none
      | _ => Option.none

/-- The outcome of the one HTTP call made for source group `f` in individual
mode. -/
def groupResult (http : HttpRequest → Option PyVal) (rows : List ConfigRow)
    (consecutivo : Int) (f : String) : Option PyVal :=
  resultadoGrupo http [("consecutivo", PyVal.int consecutivo)]
    (rows.filter (fun r => r.FUENTE = some f))

/-- Fixture: a list-documents configuration row. -/
def rowListDocs : ConfigRow :=
  ⟨some "FILENET_LIST_DOCUMENTOS", .str "http://filenet/list", .str "GET",
   .str "", .str "", .str "", .str "ID_DOC_LISTA_RIESGOS",
   some (PyExpr.name "result"), .none⟩

/-- Fixture: a get-document configuration row without a prompt. -/
def rowGetDoc : ConfigRow :=
  ⟨some "FILENET_GET_DOCUMENTO", .str "http://filenet/doc", .str "GET",
   .str "", .str "", .str "", .none, Option.none, .none⟩

/-- Fixture: an HTTP oracle on which the list-documents call yields no
result while the get-document call succeeds. -/
def httpListFails : HttpRequest → Option PyVal := fun req =>
  match req.url with
  | .str "http://filenet/list" => Option.none
  | _ => some (PyVal.dict [("ok", PyVal.bool true)])

/-- Fixture: the collective run against `httpListFails`. -/
def outListFails : ColectivaOut :=
  obtener_info_riesgos_colectiva httpListFails (fun _ => Option.none)
    (fun _ _ => .error ()) (fun _ => .error ()) (.error ())
    [rowListDocs, rowGetDoc] 7 PyVal.none 1 2 "MOV"

/-- Fixture: an insert oracle that always fails. -/
def dbInsertAlwaysFails : List Registro → Except Unit Unit := fun _ => .error ()

/-- Fixture: an HTTP oracle answering every request with a truthy body. -/
def httpAllOk : HttpRequest → Option PyVal := fun _ =>
  some (PyVal.dict [("ok", PyVal.bool true)])

/-- Fixture: an HTTP oracle answering every request with a falsy body. -/
def httpAllFalsy : HttpRequest → Option PyVal := fun _ => some (PyVal.dict [])

/-- Fixture: an HTTP oracle answering no request. -/
def httpAllNone : HttpRequest → Option PyVal := fun _ => Option.none

/-- The pure single-field template `\x7bname\x7d`. -/
def fieldTemplate (name : String) : String :=
  String.mk (lbrace :: (name.data ++ [rbrace]))

/-- A plain keyword field name: non-empty, not all digits (which would be a
positional reference), and free of braces, conversion, spec and accessor
syntax. -/
def simpleName (name : String) : Bool :=
  !name.data.isEmpty &&
  !name.data.all Char.isDigit &&
  name.data.all (fun c =>
    !(c == lbrace || c == rbrace || c == ':' || c == '!' || c == '.' || c == '['))

/-- Two configuration rows declare different variables (whenever both
declare one at all) — the well-formedness §5 of the engine assumes of its
configuration, under which each variable has a single owning group. -/
def distinctVars (a b : ConfigRow) : Prop :=
  a.VARIABLE.isTruthy = true → b.VARIABLE.isTruthy = true →
    a.VARIABLE ≠ b.VARIABLE

instance : DecidableRel distinctVars := fun a b => by
  unfold distinctVars; infer_instance

/-- Fixture: three one-row source groups for individual mode. -/
def rowGrupoA : ConfigRow :=
  ⟨some "A_FUENTE", .str "http://a", .str "GET", .str "", .str "", .str "",
   .str "VAR_A", some (.subscript (.name "result") (.lit (.str "a"))), .none⟩

/-- Fixture: the middle group, whose call will fail. -/
def rowGrupoB : ConfigRow :=
  ⟨some "B_FUENTE", .str "http://b", .str "GET", .str "", .str "", .str "",
   .str "VAR_B", some (.name "result"), .none⟩

/-- Fixture: the third group. -/
def rowGrupoC : ConfigRow :=
  ⟨some "C_FUENTE", .str "http://c", .str "GET", .str "", .str "", .str "",
   .str "VAR_C", some (.name "result"), .none⟩

/-- Fixture: an HTTP oracle failing exactly the middle group's endpoint. -/
def httpBFalla : HttpRequest → Option PyVal := fun req =>
  match req.url with
  | .str "http://b" => Option.none
  | _ => some (PyVal.dict [("a", PyVal.int 5)])

-- ===========================================================================
-- Theorems
-- ===========================================================================

/-- C2: the repository's extraction evaluator does NOT restrict the
environment to the single name `result`: because the globals dict handed to
`eval` lacks `__builtins__`, CPython injects the builtins namespace, so the
expression `open` — never bound by the engine — evaluates to the builtin
`open` function instead of failing, giving configuration expressions
ambient (filesystem, import) access, contrary to the function's own
docstring.  The second conjunct records that `open` is indeed absent from
the globals the engine provides. -/
theorem safe_eval_reaches_builtins :
    _safe_eval_extraction (some (PyExpr.name "open")) (PyVal.dict []) =
      some (PyVal.builtin "open") ∧
    alistLookup [("result", PyVal.dict [])] "open" = Option.none := by
  decide

/-- C5: counterexample — `_parse_mapping` does not always return a mapping:
on the string `"[1, 2]"` (a perfectly parseable literal) it returns the
parsed list itself, not a dict. -/
theorem parse_mapping_non_mapping_result :
    _parse_mapping (PyVal.str "[1, 2]") = PyVal.list [PyVal.int 1, PyVal.int 2] ∧
    (_parse_mapping (PyVal.str "[1, 2]")).isDict = false := by
  decide

/-- C5 (amended): `_parse_mapping` never raises; a dict passes through
unchanged, blank or unparseable text and non-string non-dict inputs yield
the empty dict, and parseable text yields exactly the parsed literal —
which need not be a mapping. -/
theorem parse_mapping_amended (v : PyVal) :
    (∀ kvs, v = PyVal.dict kvs → _parse_mapping v = v) ∧
    (∀ s, v = PyVal.str s → pyStrip s = "" → _parse_mapping v = PyVal.dict []) ∧
    (∀ s, v = PyVal.str s → ast_literal_eval s = Option.none →
      _parse_mapping v = PyVal.dict []) ∧
    (∀ s r, v = PyVal.str s → pyStrip s ≠ "" → ast_literal_eval s = some r →
      _parse_mapping v = r) ∧
    (v.isDict = false → v.isStr = false → _parse_mapping v = PyVal.dict []) := by
  refine ⟨?_, ?_, ?_, ?_, ?_⟩
  · rintro kvs rfl
    rfl
  · rintro s rfl hblank
    simp [_parse_mapping, hblank]
  · rintro s rfl hparse
    by_cases hblank : pyStrip s = ""
    · simp [_parse_mapping, hblank]
    · simp [_parse_mapping, hblank, hparse]
  · rintro s r rfl hblank hparse
    simp [_parse_mapping, hblank, hparse]
  · intro hd hs
    cases v <;> simp_all [_parse_mapping, PyVal.isDict, PyVal.isStr]

/-- C5 (amended) witness: the pass-through, blank, unparseable and
parseable cases at concrete inputs. -/
theorem parse_mapping_amended_witness :
    _parse_mapping (PyVal.dict [("a", PyVal.int 1)]) =
      PyVal.dict [("a", PyVal.int 1)] ∧
    _parse_mapping (PyVal.str "   ") = PyVal.dict [] ∧
    _parse_mapping (PyVal.str "not a dict") = PyVal.dict [] ∧
    _parse_mapping (PyVal.str "\x7b\x22a\x22: 1\x7d") = PyVal.dict [("a", PyVal.int 1)] ∧
    _parse_mapping (PyVal.int 3) = PyVal.dict [] :=
  ⟨(parse_mapping_amended _).1 _ rfl,
   (parse_mapping_amended _).2.1 "   " rfl (by decide),
   (parse_mapping_amended _).2.2.1 "not a dict" rfl (by decide),
   (parse_mapping_amended _).2.2.2.1 "\x7b\x22a\x22: 1\x7d"
     (PyVal.dict [("a", PyVal.int 1)]) rfl (by decide) (by decide),
   (parse_mapping_amended _).2.2.2.2 (by decide) (by decide)⟩

/-- C7: counterexample — the dedup key is NOT collision-free across distinct
risks of one case: because the parts are joined with an unescaped hyphen,
the risks (document type `A`, document number `B-C`) and (document type
`A-B`, document number `C`) of the same case produce the identical key
`1-2-3-M-A-B-C`. -/
theorem riesgo_motor_id_collision :
    riesgo_motor_id (PyVal.int 1) 2 3 "M" (PyVal.str "A") (PyVal.str "B-C")
        PyVal.none =
      riesgo_motor_id (PyVal.int 1) 2 3 "M" (PyVal.str "A-B") (PyVal.str "C")
        PyVal.none ∧
    riesgo_motor_id (PyVal.int 1) 2 3 "M" (PyVal.str "A") (PyVal.str "B-C")
        PyVal.none = "1-2-3-M-A-B-C" ∧
    (PyVal.str "A", PyVal.str "B-C") ≠ (PyVal.str "A-B", PyVal.str "C") := by
  decide

/-- Joining one more element appends one more separated piece. -/
theorem pyJoin_append_singleton (sep y : String) :
    ∀ xs : List String, xs ≠ [] →
      pyJoin sep (xs ++ [y]) = pyJoin sep xs ++ sep ++ y := by
  intro xs
  induction xs with
  | nil => intro h; exact absurd rfl h
  | cons x rest ih =>
      intro _
      cases rest with
      | nil => simp [pyJoin]
      | cons x2 rest2 =>
          have h2 : x2 :: rest2 ≠ [] := by simp
          calc pyJoin sep ((x :: x2 :: rest2) ++ [y])
              = x ++ sep ++ pyJoin sep ((x2 :: rest2) ++ [y]) := by
                simp [pyJoin]
            _ = x ++ sep ++ (pyJoin sep (x2 :: rest2) ++ sep ++ y) := by
                rw [ih h2]
            _ = pyJoin sep (x :: x2 :: rest2) ++ sep ++ y := by
                simp [pyJoin, String.append_assoc]

/-- C7 (amended): the dedup key is a pure function of its inputs — equal
inputs give byte-identical keys — and, whenever the movement code is
non-empty (it is a fixed non-empty code in this schema), the key with a
truthy plate extends the plate-less key by one hyphen-separated segment,
so omitting the plate gives a strictly shorter but still deterministic
key.  Collision-freedom, by contrast, fails (`riesgo_motor_id_collision`). -/
theorem riesgo_motor_id_deterministic_plate (caso : PyVal) (cp cs : Int)
    (cm : String) (tipo num placa : PyVal) (hp : placa.isTruthy = true)
    (hm : cm ≠ "") :
    riesgo_motor_id caso cp cs cm tipo num placa =
      riesgo_motor_id caso cp cs cm tipo num PyVal.none ++ "-" ++ placa.pyStr ∧
    (riesgo_motor_id caso cp cs cm tipo num PyVal.none).length <
      (riesgo_motor_id caso cp cs cm tipo num placa).length := by
  have hbase :
      ([caso, .int cp, .int cs, .str cm, tipo, num].filter PyVal.isTruthy).map
        PyVal.pyStr ≠ [] := by
    intro hcontra
    have hmem : PyVal.str cm ∈
        [caso, .int cp, .int cs, .str cm, tipo, num].filter PyVal.isTruthy := by
      refine List.mem_filter.mpr ⟨by simp, ?_⟩
      simpa [PyVal.isTruthy] using hm
    have := List.mem_map_of_mem PyVal.pyStr hmem
    rw [hcontra] at this
    exact absurd this (List.not_mem_nil _)
  have hkey :
      riesgo_motor_id caso cp cs cm tipo num placa =
        riesgo_motor_id caso cp cs cm tipo num PyVal.none ++ "-" ++ placa.pyStr := by
    unfold riesgo_motor_id
    have h1 : (if placa.isTruthy then [placa] else []) = [placa] := by
      simp [hp]
    have h2 : (if PyVal.none.isTruthy then [PyVal.none] else ([] : List PyVal)) = [] :=
      rfl
    rw [h1, h2, List.append_nil, List.filter_append, List.map_append]
    have hpl : List.filter PyVal.isTruthy [placa] = [placa] := by simp [hp]
    rw [hpl]
    simp only [List.map_cons, List.map_nil]
    rw [pyJoin_append_singleton _ _ _ hbase]
  refine ⟨hkey, ?_⟩
  rw [hkey]
  simp only [String.length_append]
  have : ("-" : String).length = 1 := rfl
  omega

/-- C7 (amended) witness: concrete keys with and without a plate. -/
theorem riesgo_motor_id_deterministic_plate_witness :
    riesgo_motor_id (PyVal.int 1) 2 3 "M" (PyVal.str "CC") (PyVal.int 77)
        (PyVal.str "XYZ123") =
      riesgo_motor_id (PyVal.int 1) 2 3 "M" (PyVal.str "CC") (PyVal.int 77)
        PyVal.none ++ "-" ++ (PyVal.str "XYZ123").pyStr ∧
    (riesgo_motor_id (PyVal.int 1) 2 3 "M" (PyVal.str "CC") (PyVal.int 77)
        PyVal.none).length <
      (riesgo_motor_id (PyVal.int 1) 2 3 "M" (PyVal.str "CC") (PyVal.int 77)
        (PyVal.str "XYZ123")).length :=
  riesgo_motor_id_deterministic_plate (PyVal.int 1) 2 3 "M" (PyVal.str "CC")
    (PyVal.int 77) (PyVal.str "XYZ123") (by decide) (by decide)

/-- Preparing at least one risk yields at least one record. -/
theorem buildRegistros_cons_ne_nil (caso : PyVal) (cp cs : Int) (cm : String)
    (riesgo : PyVal) (rest : List PyVal) (regs : List Registro)
    (h : buildRegistros caso cp cs cm (riesgo :: rest) = .ok regs) :
    regs ≠ [] := by
  unfold buildRegistros at h
  simp only [bind, Except.bind, pure, Except.pure] at h
  repeat' split at h
  all_goals cases h
  all_goals simp

/-- C8: when the INSERT into `ms_resultados` fails, the exception
propagates out of `insertar_resultados_riesgos` (the result is never a
success) and the `actualizar_estado_caso` status UPDATE is never issued:
the trace contains no status operation.  The case status is advanced only
after a confirmed successful write. -/
theorem insert_failure_blocks_status_update
    (dbInsert : List Registro → Except Unit Unit) (statusDb : Except Unit Unit)
    (riesgos : List PyVal) (caso_id : PyVal) (cp cs : Int) (cm : String)
    (hne : riesgos ≠ []) (hfail : ∀ regs, dbInsert regs = .error ()) :
    (insertar_resultados_riesgos dbInsert statusDb riesgos caso_id cp cs cm).1 ≠
      Except.ok () ∧
    ∀ c, DbOp.statusUpdate c ∉
      (insertar_resultados_riesgos dbInsert statusDb riesgos caso_id cp cs cm).2 := by
  cases riesgos with
  | nil => exact absurd rfl hne
  | cons r rest =>
      unfold insertar_resultados_riesgos
      simp only [List.isEmpty_cons, Bool.false_eq_true, if_false]
      cases hb : buildRegistros caso_id cp cs cm (r :: rest) with
      | error e => simp
      | ok regs =>
          have hregs := buildRegistros_cons_ne_nil caso_id cp cs cm r rest regs hb
          cases regs with
          | nil => exact absurd rfl hregs
          | cons reg rs =>
              simp only [hfail]
              simp [List.isEmpty_cons]

/-- C9: the Document Extraction adapter never surfaces a failure: any
exception in the effectful prefix yields a null result; a response text
without an opening brace yields null; and the adapter returns a list
exactly when the first-brace-to-last-brace span of a successful response
parses as a JSON object whose `riesgos` member is a list — the returned
list being precisely that member. -/
theorem procesar_con_gemini_only_wellformed_riesgos
    (g : PyVal → Bytes → Except Unit String) (p : PyVal) (b : Bytes) :
    (∀ l, _procesar_con_gemini g p b = some l →
      ∃ raw, g p b = .ok raw ∧
        pyFindChar raw.data lbrace ≠ -1 ∧ pyRFindChar raw.data rbrace ≠ -1 ∧
        ∃ kvs,
          json_loads (String.mk (pySlice raw.data (pyFindChar raw.data lbrace).toNat
            ((pyRFindChar raw.data rbrace).toNat + 1))) = some (.dict kvs) ∧
          alistLookup kvs "riesgos" = some (.list l)) ∧
    (∀ e, g p b = .error e → _procesar_con_gemini g p b = Option.none) ∧
    (∀ raw, g p b = .ok raw → pyFindChar raw.data lbrace = -1 →
      _procesar_con_gemini g p b = Option.none) ∧
    (∀ raw, g p b = .ok raw →
      json_loads (String.mk (pySlice raw.data (pyFindChar raw.data lbrace).toNat
        ((pyRFindChar raw.data rbrace).toNat + 1))) = Option.none →
      _procesar_con_gemini g p b = Option.none) := by
  refine ⟨?_, ?_, ?_, ?_⟩
  · intro l h
    cases hg : g p b with
    | error e => simp [_procesar_con_gemini, hg] at h
    | ok raw =>
        refine ⟨raw, rfl, ?_⟩
        simp only [_procesar_con_gemini, hg] at h
        unfold extraccion_riesgos_texto at h
        by_cases h1 : pyFindChar raw.data lbrace = -1
        · rw [if_pos h1] at h; cases h
        · rw [if_neg h1] at h
          by_cases h2 : pyRFindChar raw.data rbrace = -1
          · rw [if_pos h2] at h; cases h
          · rw [if_neg h2] at h
            refine ⟨h1, h2, ?_⟩
            by_cases h3 : (pySlice raw.data (pyFindChar raw.data lbrace).toNat
                ((pyRFindChar raw.data rbrace).toNat + 1)).isEmpty = true
            · rw [if_pos h3] at h; cases h
            · rw [if_neg h3] at h
              split at h
              next kvs heq =>
                split at h
                next l2 heq2 =>
                  cases h
                  exact ⟨kvs, heq, heq2⟩
                next heq2 => cases h
              next heq => cases h
  · intro e he
    simp [_procesar_con_gemini, he]
  · intro raw hraw h1
    simp only [_procesar_con_gemini, hraw]
    unfold extraccion_riesgos_texto
    rw [if_pos h1]
  · intro raw hraw hj
    simp only [_procesar_con_gemini, hraw]
    unfold extraccion_riesgos_texto
    by_cases h1 : pyFindChar raw.data lbrace = -1
    · rw [if_pos h1]
    · rw [if_neg h1]
      by_cases h2 : pyRFindChar raw.data rbrace = -1
      · rw [if_pos h2]
      · rw [if_neg h2]
        by_cases h3 : (pySlice raw.data (pyFindChar raw.data lbrace).toNat
            ((pyRFindChar raw.data rbrace).toNat + 1)).isEmpty = true
        · rw [if_pos h3]
        · rw [if_neg h3, hj]

/-- C9 witness: a failing model call yields a null result. -/
theorem procesar_con_gemini_only_wellformed_riesgos_witness :
    _procesar_con_gemini (fun _ _ => Except.error ()) (PyVal.str "prompt") [] =
      Option.none :=
  (procesar_con_gemini_only_wellformed_riesgos (fun _ _ => Except.error ())
    (PyVal.str "prompt") []).2.1 () rfl

/-- C8 witness: a concrete one-risk insert against an always-failing
database propagates the failure and never touches the case status. -/
theorem insert_failure_blocks_status_update_witness :
    (insertar_resultados_riesgos dbInsertAlwaysFails (.ok ())
        [PyVal.dict [("TIPO_DOCUMENTO", PyVal.str "CC")]] (PyVal.int 9) 1 2 "M").1 ≠
      Except.ok () ∧
    ∀ c, DbOp.statusUpdate c ∉
      (insertar_resultados_riesgos dbInsertAlwaysFails (.ok ())
        [PyVal.dict [("TIPO_DOCUMENTO", PyVal.str "CC")]] (PyVal.int 9) 1 2 "M").2 :=
  insert_failure_blocks_status_update dbInsertAlwaysFails (.ok ())
    [PyVal.dict [("TIPO_DOCUMENTO", PyVal.str "CC")]] (PyVal.int 9) 1 2 "M"
    (by simp) (fun _ => rfl)

/-- Whenever the get-document configuration row exists and its request
formatting succeeds, the get-document iteration records exactly one more
HTTP invocation, carrying the placeholder mapping it was entered with. -/
theorem colectiva_get_documento_calls (http : HttpRequest → Option PyVal)
    (b64 : String → Option Bytes) (g : PyVal → Bytes → Except Unit String)
    (dbi : List Registro → Except Unit Unit) (st : Except Unit Unit)
    (rows : List ConfigRow) (ph : List (String × PyVal))
    (calls : List CallRecord) (caso : PyVal) (cp cs : Int) (cm : String)
    (rowB : ConfigRow) (restB : List ConfigRow)
    (hB : filterFuente rows "FILENET_GET_DOCUMENTO" = rowB :: restB)
    (r2 : Option PyVal) (hreq : _request_por_fuente http rowB ph = .ok r2) :
    (colectiva_get_documento http b64 g dbi st rows ph calls caso cp cs cm).calls
      = calls ++ [⟨"FILENET_GET_DOCUMENTO", ph⟩] := by
  unfold colectiva_get_documento
  rw [hB]
  dsimp only
  rw [hreq]
  cases r2 with
  | none => rfl
  | some res =>
      dsimp only
      unfold resultadoGetDocumento
      repeat' split
      all_goals rfl

/-- The get-document iteration entered with a request that yields no truthy
body falls through to the empty result, still recording its invocation. -/
theorem colectiva_get_documento_falsy (http : HttpRequest → Option PyVal)
    (b64 : String → Option Bytes) (g : PyVal → Bytes → Except Unit String)
    (dbi : List Registro → Except Unit Unit) (st : Except Unit Unit)
    (rows : List ConfigRow) (ph : List (String × PyVal))
    (calls : List CallRecord) (caso : PyVal) (cp cs : Int) (cm : String)
    (rowB : ConfigRow) (restB : List ConfigRow)
    (hB : filterFuente rows "FILENET_GET_DOCUMENTO" = rowB :: restB)
    (r2 : Option PyVal) (hreq : _request_por_fuente http rowB ph = .ok r2)
    (hf : truthyPart r2 = Option.none) :
    colectiva_get_documento http b64 g dbi st rows ph calls caso cp cs cm =
      ⟨.ok emptyRiesgos, calls ++ [⟨"FILENET_GET_DOCUMENTO", ph⟩], []⟩ := by
  unfold colectiva_get_documento
  rw [hB]
  dsimp only
  rw [hreq]
  cases r2 with
  | none => rfl
  | some res =>
      simp only [truthyPart] at hf
      have hres : res.isTruthy = false := by
        by_cases ht : res.isTruthy = true
        · rw [if_pos ht] at hf; cases hf
        · exact Bool.eq_false_iff.mpr ht
      unfold resultadoGetDocumento
      simp only [hres]
      rfl

/-- C1: counterexample — with the list-documents call yielding no result,
`obtener_info_riesgos_colectiva` still invokes the get-document source:
the loop merely `continue`s past the failed step instead of
short-circuiting, so both fixed sources appear in the call trace. -/
theorem colectiva_invokes_get_documento_after_empty_list :
    _request_por_fuente httpListFails rowListDocs
        [("consecutivo", PyVal.int 7)] = .ok Option.none ∧
    CallRecord.mk "FILENET_GET_DOCUMENTO" [("consecutivo", PyVal.int 7)]
      ∈ outListFails.calls := by
  decide

/-- C1 (amended): when the list-documents call yields no result, its
extraction is skipped and the loop proceeds to the get-document source —
which IS still invoked when configured, with the unaugmented placeholders;
when that step in turn yields no truthy result, the function returns the
empty result `("riesgos": [])`. -/
theorem colectiva_empty_list_proceeds_to_get_documento
    (http : HttpRequest → Option PyVal) (b64 : String → Option Bytes)
    (g : PyVal → Bytes → Except Unit String)
    (dbi : List Registro → Except Unit Unit) (st : Except Unit Unit)
    (rows : List ConfigRow) (consecutivo : Int) (caso : PyVal)
    (cp cs : Int) (cm : String)
    (rowA : ConfigRow) (restA : List ConfigRow)
    (hA : filterFuente rows "FILENET_LIST_DOCUMENTOS" = rowA :: restA)
    (rA : Option PyVal)
    (hresA : _request_por_fuente http rowA [("consecutivo", .int consecutivo)] =
      .ok rA)
    (hAf : truthyPart rA = Option.none)
    (rowB : ConfigRow) (restB : List ConfigRow)
    (hB : filterFuente rows "FILENET_GET_DOCUMENTO" = rowB :: restB)
    (rB : Option PyVal)
    (hresB : _request_por_fuente http rowB [("consecutivo", .int consecutivo)] =
      .ok rB)
    (hBf : truthyPart rB = Option.none) :
    obtener_info_riesgos_colectiva http b64 g dbi st rows consecutivo caso
        cp cs cm =
      ⟨.ok emptyRiesgos,
       [⟨"FILENET_LIST_DOCUMENTOS", [("consecutivo", .int consecutivo)]⟩,
        ⟨"FILENET_GET_DOCUMENTO", [("consecutivo", .int consecutivo)]⟩], []⟩ := by
  unfold obtener_info_riesgos_colectiva
  rw [hA]
  dsimp only
  rw [hresA]
  have hstep := colectiva_get_documento_falsy http b64 g dbi st rows
    [("consecutivo", .int consecutivo)]
    [⟨"FILENET_LIST_DOCUMENTOS", [("consecutivo", .int consecutivo)]⟩]
    caso cp cs cm rowB restB hB rB hresB hBf
  cases rA with
  | none => simpa [resultadoListDocumentos] using hstep
  | some res =>
      simp only [truthyPart] at hAf
      have hres : res.isTruthy = false := by
        by_cases ht : res.isTruthy = true
        · rw [if_pos ht] at hAf; cases hAf
        · exact Bool.eq_false_iff.mpr ht
      simpa [resultadoListDocumentos, hres] using hstep

/-- C1 (amended) witness: the concrete fixture run — list-documents fails,
get-document is invoked and also unusable, and the result is empty. -/
theorem colectiva_empty_list_proceeds_witness :
    obtener_info_riesgos_colectiva httpAllNone (fun _ => Option.none)
        (fun _ _ => .error ()) (fun _ => .error ()) (.error ())
        [rowListDocs, rowGetDoc] 7 PyVal.none 1 2 "MOV" =
      ⟨.ok emptyRiesgos,
       [⟨"FILENET_LIST_DOCUMENTOS", [("consecutivo", PyVal.int 7)]⟩,
        ⟨"FILENET_GET_DOCUMENTO", [("consecutivo", PyVal.int 7)]⟩], []⟩ :=
  colectiva_empty_list_proceeds_to_get_documento httpAllNone
    (fun _ => Option.none) (fun _ _ => .error ()) (fun _ => .error ())
    (.error ()) [rowListDocs, rowGetDoc] 7 PyVal.none 1 2 "MOV"
    rowListDocs [] rfl Option.none rfl rfl
    rowGetDoc [] rfl Option.none rfl rfl

/-- C6: in collective mode, when the list-documents call succeeds with a
truthy body and its row declares `ID_DOC_LISTA_RIESGOS` with an extraction,
the extracted value is written into the placeholders under
`id_doc_lista_riesgos` before the get-document step: the recorded
get-document invocation carries exactly the augmented mapping, and that
mapping binds `id_doc_lista_riesgos` to the extracted value. -/
theorem colectiva_threads_id_doc_lista_riesgos
    (http : HttpRequest → Option PyVal) (b64 : String → Option Bytes)
    (g : PyVal → Bytes → Except Unit String)
    (dbi : List Registro → Except Unit Unit) (st : Except Unit Unit)
    (rows : List ConfigRow) (consecutivo : Int) (caso : PyVal)
    (cp cs : Int) (cm : String)
    (rowA : ConfigRow) (restA : List ConfigRow)
    (hA : filterFuente rows "FILENET_LIST_DOCUMENTOS" = rowA :: restA)
    (hvar : rowA.VARIABLE = .str "ID_DOC_LISTA_RIESGOS")
    (e : PyExpr) (hex : rowA.EXTRACCION = some e)
    (res : PyVal)
    (hres : _request_por_fuente http rowA [("consecutivo", .int consecutivo)] =
      .ok (some res))
    (htr : res.isTruthy = true)
    (rowB : ConfigRow) (restB : List ConfigRow)
    (hB : filterFuente rows "FILENET_GET_DOCUMENTO" = rowB :: restB)
    (r2 : Option PyVal)
    (hreq2 : _request_por_fuente http rowB
      (alistInsert [("consecutivo", .int consecutivo)] "id_doc_lista_riesgos"
        (optPy (_safe_eval_extraction (some e) res))) = .ok r2) :
    CallRecord.mk "FILENET_GET_DOCUMENTO"
        (alistInsert [("consecutivo", .int consecutivo)] "id_doc_lista_riesgos"
          (optPy (_safe_eval_extraction (some e) res)))
      ∈ (obtener_info_riesgos_colectiva http b64 g dbi st rows consecutivo caso
          cp cs cm).calls ∧
    alistLookup
        (alistInsert [("consecutivo", .int consecutivo)] "id_doc_lista_riesgos"
          (optPy (_safe_eval_extraction (some e) res)))
        "id_doc_lista_riesgos"
      = some (optPy (_safe_eval_extraction (some e) res)) := by
  constructor
  · have hcalls := colectiva_get_documento_calls http b64 g dbi st rows
      (alistInsert [("consecutivo", .int consecutivo)] "id_doc_lista_riesgos"
        (optPy (_safe_eval_extraction (some e) res)))
      [⟨"FILENET_LIST_DOCUMENTOS", [("consecutivo", .int consecutivo)]⟩]
      caso cp cs cm rowB restB hB r2 hreq2
    unfold obtener_info_riesgos_colectiva
    rw [hA]
    dsimp only
    rw [hres]
    dsimp only
    simp only [resultadoListDocumentos]
    rw [if_neg (by rw [htr]; simp)]
    rw [if_pos (by rw [hvar, hex]; rfl)]
    rw [hex]
    rw [hcalls]
    simp
  · simp [alistInsert, alistLookup]

/-- C4: counterexample — a string with an unterminated opening brace is not
returned unchanged: `str.format` raises ValueError, which `_format_values`
does not catch (only KeyError is), so substitution propagates an
exception instead of best-effort returning the input. -/
theorem format_values_raises_on_lone_brace :
    _format_values (PyVal.str "a\x7b") [("consecutivo", PyVal.int 1)] =
      Except.error PyErr.valueError ∧
    _format_values (PyVal.str "a\x7b") [("consecutivo", PyVal.int 1)] ≠
      Except.ok (PyVal.str "a\x7b") := by
  decide

/-- Splitting at a character absent from the list finds nothing. -/
theorem splitAtChar_none (sep : Char) :
    ∀ cs : List Char, (∀ x ∈ cs, x ≠ sep) → splitAtChar sep cs = Option.none := by
  intro cs
  induction cs with
  | nil => intro _; rfl
  | cons c rest ih =>
      intro hall
      have hc := hall c (List.mem_cons_self _ _)
      simp only [splitAtChar, hc, if_false]
      rw [ih (fun x hx => hall x (List.mem_cons_of_mem _ hx))]

/-- A field body free of closing braces is terminated exactly at the
appended closing brace. -/
theorem splitAtRBrace_append (name : List Char) (hname : ∀ x ∈ name, x ≠ rbrace) :
    ∀ rest : List Char,
      splitAtRBrace (name ++ rbrace :: rest) = some (name, rest) := by
  induction name with
  | nil =>
      intro rest
      simp [splitAtRBrace]
  | cons c cs ih =>
      intro rest
      have hc := hname c (List.mem_cons_self _ _)
      simp only [List.cons_append, splitAtRBrace, hc, if_false]
      have hrec := ih (fun x hx => hname x (List.mem_cons_of_mem _ hx)) rest
      simp only [List.append_eq] at hrec ⊢
      rw [hrec]

/-- An argument name free of accessor characters is consumed whole. -/
theorem takeArgName_id (name : List Char)
    (h : ∀ x ∈ name, x ≠ '.' ∧ x ≠ '[') : takeArgName name = (name, []) := by
  induction name with
  | nil => rfl
  | cons c cs ih =>
      have hc := h c (List.mem_cons_self _ _)
      rw [takeArgName, ih (fun x hx => h x (List.mem_cons_of_mem _ hx))]
      simp [hc.1, hc.2]

/-- The component facts packed in `simpleName`. -/
theorem simpleName_spec (name : String) (h : simpleName name = true) :
    name.data ≠ [] ∧ ¬(name.data.all Char.isDigit = true) ∧
      ∀ x ∈ name.data, x ≠ lbrace ∧ x ≠ rbrace ∧ x ≠ ':' ∧ x ≠ '!' ∧
        x ≠ '.' ∧ x ≠ '[' := by
  simp only [simpleName, Bool.and_eq_true, Bool.not_eq_true'] at h
  obtain ⟨⟨hne, hdig⟩, hfree⟩ := h
  refine ⟨by simpa using hne, by simp [hdig], ?_⟩
  intro x hx
  have h6 := List.all_eq_true.mp hfree x hx
  simp only [Bool.not_eq_true', Bool.or_eq_false_iff, beq_eq_false_iff_ne, ne_eq] at h6
  obtain ⟨⟨⟨⟨⟨h1, h2⟩, h3⟩, h4⟩, h5⟩, h6⟩ := h6
  exact ⟨h1, h2, h3, h4, h5, h6⟩

/-- On a plain keyword field the formatter reduces to a placeholder lookup:
a bound name renders `str(value)`, an unbound one raises KeyError. -/
theorem formatField_simple (ph : List (String × PyVal)) (name : String)
    (h : simpleName name = true) :
    formatField ph name.data =
      (match alistLookup ph name with
       | some v => .ok v.pyStr
       | Option.none => .error PyErr.keyError) := by
  obtain ⟨hne, hdig, hfree⟩ := simpleName_spec name h
  have hcolon : splitAtChar ':' name.data = Option.none :=
    splitAtChar_none ':' name.data (fun x hx => (hfree x hx).2.2.1)
  have hbang : splitAtChar '!' name.data = Option.none :=
    splitAtChar_none '!' name.data (fun x hx => (hfree x hx).2.2.2.1)
  have hargs : takeArgName name.data = (name.data, []) :=
    takeArgName_id name.data (fun x hx =>
      ⟨(hfree x hx).2.2.2.2.1, (hfree x hx).2.2.2.2.2⟩)
  unfold formatField
  rw [hcolon]
  simp only []
  rw [hbang]
  simp only []
  rw [hargs]
  simp only [List.isEmpty_eq_true]
  rw [if_neg (by simp [hne, hdig])]
  have hmk : String.mk name.data = name := rfl
  rw [hmk]
  cases hl : alistLookup ph name with
  | none => rfl
  | some v => rfl

/-- A brace-free character list formats to itself. -/
theorem pyFormatAux_no_brace (ph : List (String × PyVal)) :
    ∀ fuel (cs : List Char), cs.length < fuel →
      (∀ x ∈ cs, x ≠ lbrace ∧ x ≠ rbrace) →
      pyFormatAux ph fuel cs = .ok (String.mk cs) := by
  intro fuel
  induction fuel with
  | zero => intro cs h _; exact absurd h (by omega)
  | succ fuel ih =>
      intro cs hlen hall
      match cs with
      | [] => rfl
      | [c] =>
          have hc := hall c (List.mem_cons_self _ _)
          simp only [pyFormatAux, hc.1, hc.2, if_false]
          rfl
      | c :: c2 :: rest =>
          have hc := hall c (List.mem_cons_self _ _)
          have hrec : pyFormatAux ph fuel (c2 :: rest) = .ok (String.mk (c2 :: rest)) := by
            apply ih
            · simp only [List.length_cons] at hlen ⊢; omega
            · exact fun x hx => hall x (List.mem_cons_of_mem _ hx)
          simp only [pyFormatAux, hc.1, hc.2, if_false]
          rw [hrec]
          rfl

/-- The one-step evaluation of a replacement field at the head of a
template. -/
theorem pyFormatAux_field_step (ph : List (String × PyVal)) (fuel : Nat)
    (c2 : Char) (rest2 content rest3 : List Char) (hc2 : c2 ≠ lbrace)
    (hsp : splitAtRBrace (c2 :: rest2) = some (content, rest3)) :
    pyFormatAux ph (fuel + 1) (lbrace :: c2 :: rest2) =
      Except.bind (formatField ph content)
        (fun f => Except.bind (pyFormatAux ph fuel rest3)
          (fun t => .ok (f ++ t))) := by
  simp only [pyFormatAux, if_pos rfl, hc2, if_false, hsp]
  rfl

/-- Appending the empty string is the identity. -/
theorem string_append_empty (s : String) : s ++ "" = s := by
  cases s with
  | mk data => exact congrArg String.mk (List.append_nil data)

/-- A pure single-field template with a plain keyword name formats to the
looked-up value, or raises KeyError when the name is unbound. -/
theorem pyFormat_field (ph : List (String × PyVal)) (name : String)
    (h : simpleName name = true) :
    pyFormat (fieldTemplate name) ph =
      (match alistLookup ph name with
       | some v => .ok v.pyStr
       | Option.none => .error PyErr.keyError) := by
  obtain ⟨hne, hdig, hfree⟩ := simpleName_spec name h
  cases hd : name.data with
  | nil => exact absurd hd hne
  | cons n1 nrest =>
      have hn1 : n1 ≠ lbrace := (hfree n1 (by rw [hd]; exact List.mem_cons_self _ _)).1
      have hnorb : ∀ x ∈ n1 :: nrest, x ≠ rbrace := by
        intro x hx
        exact (hfree x (by rw [hd]; exact hx)).2.1
      have hsplit := splitAtRBrace_append (n1 :: nrest) hnorb []
      simp only [List.cons_append] at hsplit
      have hdata : (fieldTemplate name).data = lbrace :: n1 :: (nrest ++ [rbrace]) := by
        show lbrace :: (name.data ++ [rbrace]) = _
        rw [hd]
        rfl
      unfold pyFormat
      rw [hdata]
      rw [pyFormatAux_field_step ph _ n1 (nrest ++ [rbrace]) (n1 :: nrest) [] hn1 hsplit]
      rw [← hd, formatField_simple ph name h]
      cases hl : alistLookup ph name with
      | none => rfl
      | some v =>
          simp only [Except.bind]
          have hnil : pyFormatAux ph ((lbrace :: n1 :: (nrest ++ [rbrace])).length) [] =
              .ok "" := by
            simp only [List.length_cons]
            rfl
          rw [hnil]
          show Except.ok (v.pyStr ++ "") = Except.ok v.pyStr
          rw [string_append_empty]

/-- C4 (amended): placeholder substitution is structure-preserving and
best-effort on well-formed simple templates — a brace-free string is
returned unchanged, a defined `\x7bname\x7d` field is replaced by exactly
`str(value)`, an undefined one leaves the string unchanged (KeyError is
caught), dict keys are preserved in order, list lengths are preserved, and
non-string scalars pass through — but a string whose braces do not form
such fields (lone or positional braces, malformed fields) raises instead
of being returned unchanged (`format_values_raises_on_lone_brace`). -/
theorem format_values_amended (ph : List (String × PyVal)) :
    (∀ s : String, (∀ x ∈ s.data, x ≠ lbrace ∧ x ≠ rbrace) →
      _format_values (.str s) ph = .ok (.str s)) ∧
    (∀ name v, simpleName name = true → alistLookup ph name = some v →
      _format_values (.str (fieldTemplate name)) ph = .ok (.str v.pyStr)) ∧
    (∀ name, simpleName name = true → alistLookup ph name = Option.none →
      _format_values (.str (fieldTemplate name)) ph =
        .ok (.str (fieldTemplate name))) ∧
    (∀ kvs kvs2, formatDict kvs ph = .ok kvs2 →
      kvs2.map Prod.fst = kvs.map Prod.fst) ∧
    (∀ xs xs2, formatList xs ph = .ok xs2 → xs2.length = xs.length) ∧
    (∀ n : Int, _format_values (.int n) ph = .ok (.int n)) ∧
    (_format_values .none ph = .ok .none) ∧
    (∀ b, _format_values (.bool b) ph = .ok (.bool b)) := by
  refine ⟨?_, ?_, ?_, ?_, ?_, fun n => rfl, rfl, fun b => rfl⟩
  · intro str hs
    have hfa : pyFormat str ph = .ok (String.mk str.data) := by
      unfold pyFormat
      exact pyFormatAux_no_brace ph (str.data.length + 1) str.data (by omega) hs
    have : pyFormat str ph = .ok str := hfa
    simp only [_format_values, this]
  · intro name v h hl
    have := pyFormat_field ph name h
    rw [hl] at this
    simp only [_format_values, this]
  · intro name h hl
    have := pyFormat_field ph name h
    rw [hl] at this
    simp only [_format_values, this]
  · intro kvs
    induction kvs with
    | nil =>
        intro kvs2 h
        cases h
        rfl
    | cons kv rest ih =>
        intro kvs2 h
        obtain ⟨k, v⟩ := kv
        unfold formatDict at h
        simp only [bind, Except.bind] at h
        split at h
        · cases h
        · split at h
          · cases h
          · cases h
            simp only [List.map_cons, List.cons.injEq]
            refine ⟨trivial, ?_⟩
            rename_i v2 hv2 rest2 hrest2
            exact ih rest2 hrest2
  · intro xs
    induction xs with
    | nil =>
        intro xs2 h
        cases h
        rfl
    | cons x rest ih =>
        intro xs2 h
        unfold formatList at h
        simp only [bind, Except.bind] at h
        split at h
        · cases h
        · split at h
          · cases h
          · cases h
            simp only [List.length_cons]
            rename_i x2 hx2 rest2 hrest2
            rw [ih rest2 hrest2]

/-- C4 (amended) witness: the brace-free, defined-field, undefined-field,
dict and scalar cases at concrete inputs. -/
theorem format_values_amended_witness :
    _format_values (.str "abc") [("name", PyVal.int 7)] = .ok (.str "abc") ∧
    _format_values (.str (fieldTemplate "name")) [("name", PyVal.int 7)] =
      .ok (.str (PyVal.int 7).pyStr) ∧
    _format_values (.str (fieldTemplate "missing")) [("name", PyVal.int 7)] =
      .ok (.str (fieldTemplate "missing")) ∧
    _format_values (.int 5) [("name", PyVal.int 7)] = .ok (.int 5) :=
  ⟨(format_values_amended [("name", PyVal.int 7)]).1 "abc" (by decide),
   (format_values_amended [("name", PyVal.int 7)]).2.1 "name" (PyVal.int 7)
     (by decide) rfl,
   (format_values_amended [("name", PyVal.int 7)]).2.2.1 "missing"
     (by decide) rfl,
   (format_values_amended [("name", PyVal.int 7)]).2.2.2.2.2.1 5⟩

/-- C6 witness: the concrete fixture run — a truthy list-documents response
is extracted and visible in the recorded get-document invocation. -/
theorem colectiva_threads_id_doc_lista_riesgos_witness :
    CallRecord.mk "FILENET_GET_DOCUMENTO"
        (alistInsert [("consecutivo", PyVal.int 7)] "id_doc_lista_riesgos"
          (optPy (_safe_eval_extraction (some (PyExpr.name "result"))
            (PyVal.dict [("ok", PyVal.bool true)]))))
      ∈ (obtener_info_riesgos_colectiva httpAllOk (fun _ => Option.none)
          (fun _ _ => .error ()) (fun _ => .error ()) (.error ())
          [rowListDocs, rowGetDoc] 7 PyVal.none 1 2 "MOV").calls ∧
    alistLookup
        (alistInsert [("consecutivo", PyVal.int 7)] "id_doc_lista_riesgos"
          (optPy (_safe_eval_extraction (some (PyExpr.name "result"))
            (PyVal.dict [("ok", PyVal.bool true)]))))
        "id_doc_lista_riesgos"
      = some (optPy (_safe_eval_extraction (some (PyExpr.name "result"))
          (PyVal.dict [("ok", PyVal.bool true)]))) :=
  colectiva_threads_id_doc_lista_riesgos httpAllOk (fun _ => Option.none)
    (fun _ _ => .error ()) (fun _ => .error ()) (.error ())
    [rowListDocs, rowGetDoc] 7 PyVal.none 1 2 "MOV"
    rowListDocs [] rfl rfl (PyExpr.name "result") rfl
    (PyVal.dict [("ok", PyVal.bool true)]) rfl (by decide)
    rowGetDoc [] rfl (some (PyVal.dict [("ok", PyVal.bool true)])) rfl

/-- The source call's outcome decomposes: formatting either fails the same
way for every HTTP oracle, or it produces one request on which the oracle
alone decides the result. -/
theorem request_por_fuente_shape (row : ConfigRow) (ph : List (String × PyVal)) :
    (∃ e, ∀ h2 : HttpRequest → Option PyVal,
        _request_por_fuente h2 row ph = .error e) ∨
    (∃ req, ∀ h2 : HttpRequest → Option PyVal,
        _request_por_fuente h2 row ph = .ok (h2 req)) := by
  cases h1 : pyUpper row.METODO with
  | error e =>
      left
      exact ⟨e, fun h2 => by
        unfold _request_por_fuente
        simp only [bind, Except.bind, h1]⟩
  | ok m =>
      cases h2 : _format_values row.URL ph with
      | error e =>
          left
          exact ⟨e, fun hh => by
            unfold _request_por_fuente
            simp only [bind, Except.bind, h1, h2]⟩
      | ok url =>
          cases h3 : _format_values (_parse_mapping row.HEADER) ph with
          | error e =>
              left
              exact ⟨e, fun hh => by
                unfold _request_por_fuente
                simp only [bind, Except.bind, h1, h2, h3]⟩
          | ok headers =>
              cases h4 : _format_values (_parse_mapping row.PAYLOAD) ph with
              | error e =>
                  left
                  exact ⟨e, fun hh => by
                    unfold _request_por_fuente
                    simp only [bind, Except.bind, h1, h2, h3, h4]⟩
              | ok payload =>
                  cases h5 : _format_values (_parse_mapping row.PARAMS) ph with
                  | error e =>
                      left
                      exact ⟨e, fun hh => by
                        unfold _request_por_fuente
                        simp only [bind, Except.bind, h1, h2, h3, h4, h5]⟩
                  | ok params =>
                      right
                      refine ⟨⟨m, url, headers,
                        if m ≠ "GET" && payload.isTruthy then payload else .none,
                        if m = "GET" && params.isTruthy then params else .none⟩,
                        fun hh => ?_⟩
                      unfold _request_por_fuente
                      simp only [bind, Except.bind, h1, h2, h3, h4, h5]

/-- The individual-mode extraction continuation is insensitive to
replacing a falsy decoded body by no result. -/
theorem resultadoIndividual_congr (df : List ConfigRow)
    (vd : List (PyVal × PyVal)) (v₁ v₂ : Option PyVal)
    (h : truthyPart v₁ = truthyPart v₂) :
    resultadoIndividual df vd v₁ = resultadoIndividual df vd v₂ := by
  cases v₁ with
  | none =>
      cases v₂ with
      | none => rfl
      | some b =>
          simp only [truthyPart] at h
          by_cases hb : b.isTruthy = true
          · rw [if_pos hb] at h; cases h
          · simp [resultadoIndividual, hb]
  | some a =>
      cases v₂ with
      | none =>
          simp only [truthyPart] at h
          by_cases ha : a.isTruthy = true
          · rw [if_pos ha] at h; cases h
          · simp [resultadoIndividual, ha]
      | some b =>
          simp only [truthyPart] at h
          by_cases ha : a.isTruthy = true
          · rw [if_pos ha] at h
            by_cases hb : b.isTruthy = true
            · rw [if_pos hb] at h
              cases h
              rfl
            · rw [if_neg hb] at h; cases h
          · rw [if_neg ha] at h
            by_cases hb : b.isTruthy = true
            · rw [if_pos hb] at h; cases h
            · simp [resultadoIndividual, ha, hb]

/-- The get-document continuation is insensitive to replacing a falsy
decoded body by no result. -/
theorem resultadoGetDocumento_congr (b64 : String → Option Bytes)
    (g : PyVal → Bytes → Except Unit String)
    (dbi : List Registro → Except Unit Unit) (st : Except Unit Unit)
    (cfg : ConfigRow) (calls : List CallRecord) (caso : PyVal) (cp cs : Int)
    (cm : String) (v₁ v₂ : Option PyVal)
    (h : truthyPart v₁ = truthyPart v₂) :
    resultadoGetDocumento b64 g dbi st cfg calls caso cp cs cm v₁ =
      resultadoGetDocumento b64 g dbi st cfg calls caso cp cs cm v₂ := by
  cases v₁ with
  | none =>
      cases v₂ with
      | none => rfl
      | some b =>
          simp only [truthyPart] at h
          by_cases hb : b.isTruthy = true
          · rw [if_pos hb] at h; cases h
          · simp [resultadoGetDocumento, hb]
  | some a =>
      cases v₂ with
      | none =>
          simp only [truthyPart] at h
          by_cases ha : a.isTruthy = true
          · rw [if_pos ha] at h; cases h
          · simp [resultadoGetDocumento, ha]
      | some b =>
          simp only [truthyPart] at h
          by_cases ha : a.isTruthy = true
          · rw [if_pos ha] at h
            by_cases hb : b.isTruthy = true
            · rw [if_pos hb] at h
              cases h
              rfl
            · rw [if_neg hb] at h; cases h
          · rw [if_neg ha] at h
            by_cases hb : b.isTruthy = true
            · rw [if_pos hb] at h; cases h
            · simp [resultadoGetDocumento, ha, hb]

/-- The list-documents continuation is insensitive to replacing a falsy
decoded body by no result. -/
theorem resultadoListDocumentos_congr_res (cfg : ConfigRow)
    (ph : List (String × PyVal)) (proceed : List (String × PyVal) → ColectivaOut)
    (v₁ v₂ : Option PyVal) (h : truthyPart v₁ = truthyPart v₂) :
    resultadoListDocumentos cfg ph proceed v₁ =
      resultadoListDocumentos cfg ph proceed v₂ := by
  cases v₁ with
  | none =>
      cases v₂ with
      | none => rfl
      | some b =>
          simp only [truthyPart] at h
          by_cases hb : b.isTruthy = true
          · rw [if_pos hb] at h; cases h
          · simp [resultadoListDocumentos, hb]
  | some a =>
      cases v₂ with
      | none =>
          simp only [truthyPart] at h
          by_cases ha : a.isTruthy = true
          · rw [if_pos ha] at h; cases h
          · simp [resultadoListDocumentos, ha]
      | some b =>
          simp only [truthyPart] at h
          by_cases ha : a.isTruthy = true
          · rw [if_pos ha] at h
            by_cases hb : b.isTruthy = true
            · rw [if_pos hb] at h
              cases h
              rfl
            · rw [if_neg hb] at h; cases h
          · rw [if_neg ha] at h
            by_cases hb : b.isTruthy = true
            · rw [if_pos hb] at h; cases h
            · simp [resultadoListDocumentos, ha, hb]

/-- The list-documents continuation respects pointwise-equal
continuations. -/
theorem resultadoListDocumentos_congr_proceed (cfg : ConfigRow)
    (ph : List (String × PyVal))
    (proceed₁ proceed₂ : List (String × PyVal) → ColectivaOut)
    (hp : ∀ p, proceed₁ p = proceed₂ p) (v : Option PyVal) :
    resultadoListDocumentos cfg ph proceed₁ v =
      resultadoListDocumentos cfg ph proceed₂ v := by
  cases v with
  | none => exact hp ph
  | some res =>
      unfold resultadoListDocumentos
      dsimp only
      by_cases ht : (!res.isTruthy) = true
      · rw [if_pos ht, if_pos ht]
        exact hp ph
      · rw [if_neg ht, if_neg ht]
        by_cases hc : (cfg.VARIABLE = PyVal.str "ID_DOC_LISTA_RIESGOS" &&
            cfg.EXTRACCION.isSome) = true
        · rw [if_pos hc, if_pos hc]
          exact hp _
        · rw [if_neg hc, if_neg hc]
          exact hp ph

/-- One individual-mode source task is insensitive to replacing a falsy
decoded body by no result. -/
theorem procesar_fuente_congr (http http2 : HttpRequest → Option PyVal)
    (hagree : ∀ req, truthyPart (http req) = truthyPart (http2 req))
    (ph : List (String × PyVal)) (g : List ConfigRow)
    (vd : List (PyVal × PyVal)) :
    _procesar_fuente_individual http ph g vd =
      _procesar_fuente_individual http2 ph g vd := by
  cases g with
  | nil => rfl
  | cons cfg rest =>
      unfold _procesar_fuente_individual
      dsimp only
      rcases request_por_fuente_shape cfg ph with ⟨e, he⟩ | ⟨req, hr⟩
      · rw [he http, he http2]
      · rw [hr http, hr http2]
        dsimp only
        exact resultadoIndividual_congr (cfg :: rest) vd (http req) (http2 req)
          (hagree req)

/-- The individual-mode aggregation is insensitive to replacing falsy
decoded bodies by no result. -/
theorem aggregateIndividual_congr (http http2 : HttpRequest → Option PyVal)
    (hagree : ∀ req, truthyPart (http req) = truthyPart (http2 req))
    (rows : List ConfigRow) (consecutivo : Int) :
    aggregateIndividual http rows consecutivo =
      aggregateIndividual http2 rows consecutivo := by
  unfold aggregateIndividual
  generalize (uniqueVals (rows.map ConfigRow.VARIABLE)).map
    (fun v => (v, PyVal.none)) = vd0
  induction groupKeys rows generalizing vd0 with
  | nil => rfl
  | cons k keys ih =>
      simp only [List.foldl_cons]
      rw [procesar_fuente_congr http http2 hagree _ _ vd0]
      exact ih _

/-- The get-document iteration is insensitive to replacing falsy decoded
bodies by no result. -/
theorem colectiva_get_documento_congr (http http2 : HttpRequest → Option PyVal)
    (hagree : ∀ req, truthyPart (http req) = truthyPart (http2 req))
    (b64 : String → Option Bytes) (g : PyVal → Bytes → Except Unit String)
    (dbi : List Registro → Except Unit Unit) (st : Except Unit Unit)
    (rows : List ConfigRow) (ph : List (String × PyVal))
    (calls : List CallRecord) (caso : PyVal) (cp cs : Int) (cm : String) :
    colectiva_get_documento http b64 g dbi st rows ph calls caso cp cs cm =
      colectiva_get_documento http2 b64 g dbi st rows ph calls caso cp cs cm := by
  unfold colectiva_get_documento
  cases filterFuente rows "FILENET_GET_DOCUMENTO" with
  | nil => rfl
  | cons cfg rest =>
      dsimp only
      rcases request_por_fuente_shape cfg ph with ⟨e, he⟩ | ⟨req, hr⟩
      · rw [he http, he http2]
      · rw [hr http, hr http2]
        dsimp only
        exact resultadoGetDocumento_congr b64 g dbi st cfg _ caso cp cs cm
          (http req) (http2 req) (hagree req)

/-- C10: both orchestrators treat a successful call whose decoded body is
falsy exactly as a call that yielded no result: their entire observable
behaviour (returned value, call trace, database trace) depends on the HTTP
oracle only through the truthy part of each response — in individual mode
the group runs no extraction and its variables stay null, in collective
mode the step is skipped as failed. -/
theorem falsy_body_equals_no_result (http http2 : HttpRequest → Option PyVal)
    (hagree : ∀ req, truthyPart (http req) = truthyPart (http2 req))
    (b64 : String → Option Bytes) (g : PyVal → Bytes → Except Unit String)
    (dbi : List Registro → Except Unit Unit) (st : Except Unit Unit)
    (rows : List ConfigRow) (consecutivo : Int) (caso : PyVal)
    (cp cs : Int) (cm : String) :
    obtener_info_riesgo_individual http dbi st rows consecutivo caso cp cs cm =
      obtener_info_riesgo_individual http2 dbi st rows consecutivo caso cp cs cm ∧
    obtener_info_riesgos_colectiva http b64 g dbi st rows consecutivo caso
        cp cs cm =
      obtener_info_riesgos_colectiva http2 b64 g dbi st rows consecutivo caso
        cp cs cm := by
  constructor
  · unfold obtener_info_riesgo_individual
    rw [aggregateIndividual_congr http http2 hagree rows consecutivo]
  · unfold obtener_info_riesgos_colectiva
    cases filterFuente rows "FILENET_LIST_DOCUMENTOS" with
    | nil =>
        exact colectiva_get_documento_congr http http2 hagree b64 g dbi st
          rows _ _ caso cp cs cm
    | cons cfg rest =>
        dsimp only
        rcases request_por_fuente_shape cfg
            [("consecutivo", PyVal.int consecutivo)] with ⟨e, he⟩ | ⟨req, hr⟩
        · rw [he http, he http2]
        · rw [hr http, hr http2]
          dsimp only
          calc resultadoListDocumentos cfg [("consecutivo", PyVal.int consecutivo)]
                (fun ph => colectiva_get_documento http b64 g dbi st rows ph
                  [CallRecord.mk "FILENET_LIST_DOCUMENTOS"
                    [("consecutivo", PyVal.int consecutivo)]]
                  caso cp cs cm) (http req)
              = resultadoListDocumentos cfg [("consecutivo", PyVal.int consecutivo)]
                (fun ph => colectiva_get_documento http b64 g dbi st rows ph
                  [CallRecord.mk "FILENET_LIST_DOCUMENTOS"
                    [("consecutivo", PyVal.int consecutivo)]]
                  caso cp cs cm) (http2 req) :=
                resultadoListDocumentos_congr_res cfg _ _ (http req) (http2 req)
                  (hagree req)
            _ = resultadoListDocumentos cfg [("consecutivo", PyVal.int consecutivo)]
                (fun ph => colectiva_get_documento http2 b64 g dbi st rows ph
                  [CallRecord.mk "FILENET_LIST_DOCUMENTOS"
                    [("consecutivo", PyVal.int consecutivo)]]
                  caso cp cs cm) (http2 req) :=
                resultadoListDocumentos_congr_proceed cfg _ _ _
                  (fun p => colectiva_get_documento_congr http http2 hagree
                    b64 g dbi st rows p _ caso cp cs cm) (http2 req)

/-- C10 witness: an oracle answering every request with the falsy body
`\x7b\x7d` behaves exactly like one answering nothing at all. -/
theorem falsy_body_equals_no_result_witness :
    obtener_info_riesgo_individual httpAllFalsy dbInsertAlwaysFails (.ok ())
        [rowListDocs, rowGetDoc] 7 PyVal.none 1 2 "MOV" =
      obtener_info_riesgo_individual httpAllNone dbInsertAlwaysFails (.ok ())
        [rowListDocs, rowGetDoc] 7 PyVal.none 1 2 "MOV" ∧
    obtener_info_riesgos_colectiva httpAllFalsy (fun _ => Option.none)
        (fun _ _ => .error ()) dbInsertAlwaysFails (.ok ())
        [rowListDocs, rowGetDoc] 7 PyVal.none 1 2 "MOV" =
      obtener_info_riesgos_colectiva httpAllNone (fun _ => Option.none)
        (fun _ _ => .error ()) dbInsertAlwaysFails (.ok ())
        [rowListDocs, rowGetDoc] 7 PyVal.none 1 2 "MOV" :=
  falsy_body_equals_no_result httpAllFalsy httpAllNone (fun _ => rfl)
    (fun _ => Option.none) (fun _ _ => .error ()) dbInsertAlwaysFails (.ok ())
    [rowListDocs, rowGetDoc] 7 PyVal.none 1 2 "MOV"

/-- Lookup after an insertion. -/
theorem pvLookup_pvInsert (vd : List (PyVal × PyVal)) (k : PyVal) (x : PyVal)
    (j : PyVal) :
    pvLookup (pvInsert vd k x) j = if k = j then some x else pvLookup vd j := by
  induction vd with
  | nil =>
      simp only [pvInsert, pvLookup]
  | cons kv rest ih =>
      obtain ⟨k0, v0⟩ := kv
      by_cases hk : k0 = k
      · subst hk
        simp only [pvInsert, if_pos rfl, pvLookup]
        by_cases hj : k0 = j
        · subst hj
          simp
        · simp [hj]
      · simp only [pvInsert, hk, if_false, pvLookup]
        by_cases hj : k0 = j
        · subst hj
          have : ¬(k = k0) := fun hh => hk hh.symm
          simp [this]
        · simp only [hj, if_false]
          exact ih

/-- Looking up a declared variable in the all-null initial dict. -/
theorem pvLookup_const_map (ks : List PyVal) (V : PyVal) (h : V ∈ ks) :
    pvLookup (ks.map (fun v => (v, PyVal.none))) V = some PyVal.none := by
  induction ks with
  | nil => cases h
  | cons k rest ih =>
      simp only [List.map_cons, pvLookup]
      by_cases hk : k = V
      · simp [hk]
      · simp only [hk, if_false]
        exact ih (by
          cases List.mem_cons.mp h with
          | inl hh => exact absurd hh.symm hk
          | inr hh => exact hh)

/-- `uniqueAux` retains every member not already seen. -/
theorem mem_uniqueAux (x : PyVal) :
    ∀ (l : List PyVal) (seen : List PyVal), x ∈ l → x ∉ seen →
      x ∈ uniqueAux seen l := by
  intro l
  induction l with
  | nil => intro seen h _; cases h
  | cons y ys ih =>
      intro seen hmem hseen
      by_cases hy : y ∈ seen
      · simp only [uniqueAux, hy, if_pos]
        cases List.mem_cons.mp hmem with
        | inl hh => exact absurd (hh ▸ hy) hseen
        | inr hh => exact ih seen hh hseen
      · simp only [uniqueAux, hy, if_neg, if_false]
        by_cases hxy : x = y
        · rw [hxy]; exact List.mem_cons_self _ _
        · refine List.mem_cons_of_mem _ (ih (y :: seen) ?_ ?_)
          · cases List.mem_cons.mp hmem with
            | inl hh => exact absurd hh hxy
            | inr hh => exact hh
          · intro hh
            cases List.mem_cons.mp hh with
            | inl h2 => exact hxy h2
            | inr h2 => exact hseen h2

/-- `uniqueVals` retains every member. -/
theorem mem_uniqueVals (x : PyVal) (l : List PyVal) (h : x ∈ l) :
    x ∈ uniqueVals l :=
  mem_uniqueAux x l [] h (List.not_mem_nil x)

/-- `insertSorted` only adds. -/
theorem mem_insertSorted (x s : String) :
    ∀ acc : List String, (x = s ∨ x ∈ acc) → x ∈ insertSorted s acc := by
  intro acc
  induction acc with
  | nil =>
      intro h
      cases h with
      | inl hh => rw [hh]; exact List.mem_cons_self _ _
      | inr hh => cases hh
  | cons y ys ih =>
      intro h
      simp only [insertSorted]
      by_cases hle : charListLe s.data y.data = true
      · simp only [hle, if_pos]
        cases h with
        | inl hh => rw [hh]; exact List.mem_cons_self _ _
        | inr hh => exact List.mem_cons_of_mem _ hh
      · simp only [hle, Bool.false_eq_true, if_false]
        cases h with
        | inl hh => exact List.mem_cons_of_mem _ (ih (Or.inl hh))
        | inr hh =>
            cases List.mem_cons.mp hh with
            | inl h2 => rw [h2]; exact List.mem_cons_self _ _
            | inr h2 => exact List.mem_cons_of_mem _ (ih (Or.inr h2))

/-- Sorting by repeated insertion keeps every member. -/
theorem mem_foldr_insertSorted (x : String) :
    ∀ l : List String, x ∈ l → x ∈ l.foldr insertSorted [] := by
  intro l
  induction l with
  | nil => intro h; cases h
  | cons y ys ih =>
      intro h
      simp only [List.foldr_cons]
      cases List.mem_cons.mp h with
      | inl hh => exact mem_insertSorted x y _ (Or.inl hh)
      | inr hh => exact mem_insertSorted x y _ (Or.inr (ih hh))

/-- `uniqueStringsAux` retains every member not already seen. -/
theorem mem_uniqueStringsAux (x : String) :
    ∀ (l : List String) (seen : List String), x ∈ l → x ∉ seen →
      x ∈ uniqueStringsAux seen l := by
  intro l
  induction l with
  | nil => intro seen h _; cases h
  | cons y ys ih =>
      intro seen hmem hseen
      by_cases hy : y ∈ seen
      · simp only [uniqueStringsAux, hy, if_pos]
        cases List.mem_cons.mp hmem with
        | inl hh => exact absurd (hh ▸ hy) hseen
        | inr hh => exact ih seen hh hseen
      · simp only [uniqueStringsAux, hy, if_neg, if_false]
        by_cases hxy : x = y
        · rw [hxy]; exact List.mem_cons_self _ _
        · refine List.mem_cons_of_mem _ (ih (y :: seen) ?_ ?_)
          · cases List.mem_cons.mp hmem with
            | inl hh => exact absurd hh hxy
            | inr hh => exact hh
          · intro hh
            cases List.mem_cons.mp hh with
            | inl h2 => exact hxy h2
            | inr h2 => exact hseen h2

/-- Every declared source name is one of the group keys. -/
theorem mem_groupKeys (rows : List ConfigRow) (row : ConfigRow) (f : String)
    (hrow : row ∈ rows) (hf : row.FUENTE = some f) : f ∈ groupKeys rows := by
  unfold groupKeys
  apply mem_foldr_insertSorted
  apply mem_uniqueStringsAux f _ [] _ (List.not_mem_nil f)
  exact List.mem_filterMap.mpr ⟨row, hrow, hf⟩

/-- The extraction loop leaves untouched any variable no row of the group
writes. -/
theorem extraerVariables_preserve (res : PyVal) (V : PyVal) :
    ∀ (g : List ConfigRow) (vd : List (PyVal × PyVal)),
      (∀ r ∈ g, ¬writesVar r V) →
      pvLookup (extraerVariables g res vd) V = pvLookup vd V := by
  intro g
  induction g with
  | nil => intro vd _; rfl
  | cons r rest ih =>
      intro vd hno
      unfold extraerVariables at ih ⊢
      simp only [List.foldl_cons]
      by_cases hw : (r.VARIABLE.isTruthy && r.EXTRACCION.isSome) = true
      · simp only [hw, if_pos]
        rw [ih _ (fun r2 h2 => hno r2 (List.mem_cons_of_mem _ h2))]
        rw [pvLookup_pvInsert]
        have hne : ¬(r.VARIABLE = V) := by
          intro hh
          simp only [Bool.and_eq_true] at hw
          exact hno r (List.mem_cons_self _ _) ⟨hw.1, hw.2, hh⟩
        simp [hne]
      · simp only [hw, Bool.false_eq_true, if_false]
        exact ih _ (fun r2 h2 => hno r2 (List.mem_cons_of_mem _ h2))

/-- The extraction loop writes a row's variable with that row's extraction
when no other row of the group writes the same variable. -/
theorem extraerVariables_write (res : PyVal) (row : ConfigRow)
    (hv : row.VARIABLE.isTruthy = true) (he : row.EXTRACCION.isSome = true) :
    ∀ (g1 g2 : List ConfigRow) (vd : List (PyVal × PyVal)),
      (∀ r ∈ g1, ¬writesVar r row.VARIABLE) →
      (∀ r ∈ g2, ¬writesVar r row.VARIABLE) →
      pvLookup (extraerVariables (g1 ++ row :: g2) res vd) row.VARIABLE =
        some (optPy (_safe_eval_extraction row.EXTRACCION res)) := by
  intro g1 g2 vd h1 h2
  unfold extraerVariables
  rw [List.foldl_append]
  simp only [List.foldl_cons]
  rw [show (if (row.VARIABLE.isTruthy && row.EXTRACCION.isSome) = true then
      pvInsert (List.foldl _ vd g1) row.VARIABLE
        (optPy (_safe_eval_extraction row.EXTRACCION res))
    else List.foldl _ vd g1) = pvInsert (List.foldl (fun vd fila =>
      if (fila.VARIABLE.isTruthy && fila.EXTRACCION.isSome) = true then
        pvInsert vd fila.VARIABLE
          (optPy (_safe_eval_extraction fila.EXTRACCION res))
      else vd) vd g1) row.VARIABLE
      (optPy (_safe_eval_extraction row.EXTRACCION res)) from by
    simp [hv, he]]
  have hpres := extraerVariables_preserve res row.VARIABLE g2
  unfold extraerVariables at hpres
  rw [hpres _ h2]
  rw [pvLookup_pvInsert]
  simp

/-- A source task leaves untouched any variable no row of its group
writes. -/
theorem procesar_grupo_preserve (http : HttpRequest → Option PyVal)
    (ph : List (String × PyVal)) (V : PyVal) (g : List ConfigRow)
    (vd : List (PyVal × PyVal)) (hno : ∀ r ∈ g, ¬writesVar r V) :
    pvLookup (_procesar_fuente_individual http ph g vd) V = pvLookup vd V := by
  cases g with
  | nil => rfl
  | cons cfg rest =>
      unfold _procesar_fuente_individual
      dsimp only
      cases hreq : _request_por_fuente http cfg ph with
      | error e => rfl
      | ok r =>
          dsimp only
          cases r with
          | none => rfl
          | some res =>
              unfold resultadoIndividual
              dsimp only
              by_cases ht : res.isTruthy = true
              · rw [if_pos ht]
                exact extraerVariables_preserve res V (cfg :: rest) vd hno
              · rw [if_neg ht]

/-- A source task sets the variable of each of its rows from that row's
extraction when the call yields a truthy body, and leaves it untouched
otherwise — provided the group's rows declare pairwise-distinct
variables. -/
theorem procesar_grupo_lookup (http : HttpRequest → Option PyVal)
    (ph : List (String × PyVal)) (row : ConfigRow)
    (hv : row.VARIABLE.isTruthy = true) (he : row.EXTRACCION.isSome = true)
    (g : List ConfigRow) (hrow : row ∈ g) (hpw : g.Pairwise distinctVars)
    (vd : List (PyVal × PyVal)) :
    pvLookup (_procesar_fuente_individual http ph g vd) row.VARIABLE =
      (match resultadoGrupo http ph g with
       | some res => some (optPy (_safe_eval_extraction row.EXTRACCION res))
       | Option.none => pvLookup vd row.VARIABLE) := by
  cases g with
  | nil => cases hrow
  | cons cfg rest =>
      unfold _procesar_fuente_individual resultadoGrupo
      dsimp only
      cases hreq : _request_por_fuente http cfg ph with
      | error e => rfl
      | ok r =>
          dsimp only
          cases r with
          | none => rfl
          | some res =>
              unfold resultadoIndividual
              dsimp only
              by_cases ht : res.isTruthy = true
              · rw [if_pos ht, if_pos ht]
                dsimp only
                obtain ⟨g1, g2, hsplit⟩ := List.append_of_mem hrow
                rw [hsplit] at hpw
                have hcross := (List.pairwise_append.mp hpw).2.2
                have hself := List.pairwise_cons.mp (List.pairwise_append.mp hpw).2.1
                rw [hsplit]
                apply extraerVariables_write res row hv he g1 g2 vd
                · intro r1 h1 hw
                  obtain ⟨hw1, hw2, hw3⟩ := hw
                  exact hcross r1 h1 row (List.mem_cons_self _ _) hw1 hv hw3
                · intro r2 h2 hw
                  obtain ⟨hw1, hw2, hw3⟩ := hw
                  exact hself.1 r2 h2 hv hw1 hw3.symm
              · rw [if_neg ht, if_neg ht]

/-- Once a variable holds its group's final value, folding any further
groups — none of which may write it except its own group, which rewrites
the same value — preserves that value. -/
theorem foldl_keys_after (http : HttpRequest → Option PyVal)
    (ph : List (String × PyVal)) (rows : List ConfigRow) (row : ConfigRow)
    (f : String)
    (hv : row.VARIABLE.isTruthy = true) (he : row.EXTRACCION.isSome = true)
    (hrowF : row ∈ rows.filter (fun r => r.FUENTE = some f))
    (hpwF : (rows.filter (fun r => r.FUENTE = some f)).Pairwise distinctVars)
    (hok : ∀ k, k ≠ f →
      ∀ r ∈ rows.filter (fun r => r.FUENTE = some k), ¬writesVar r row.VARIABLE) :
    ∀ (keys : List String) (vd : List (PyVal × PyVal)),
      pvLookup vd row.VARIABLE =
        some (match resultadoGrupo http ph
            (rows.filter (fun r => r.FUENTE = some f)) with
          | some res => optPy (_safe_eval_extraction row.EXTRACCION res)
          | Option.none => PyVal.none) →
      pvLookup (keys.foldl (fun vd nombre =>
          _procesar_fuente_individual http ph
            (rows.filter (fun r => r.FUENTE = some nombre)) vd) vd)
          row.VARIABLE =
        some (match resultadoGrupo http ph
            (rows.filter (fun r => r.FUENTE = some f)) with
          | some res => optPy (_safe_eval_extraction row.EXTRACCION res)
          | Option.none => PyVal.none) := by
  intro keys
  induction keys with
  | nil => intro vd h; exact h
  | cons k ks ih =>
      intro vd h
      simp only [List.foldl_cons]
      apply ih
      by_cases hk : k = f
      · subst hk
        rw [procesar_grupo_lookup http ph row hv he _ hrowF hpwF vd]
        cases hres : resultadoGrupo http ph
            (rows.filter (fun r => r.FUENTE = some k)) with
        | none => rw [hres] at h; exact h
        | some res => rfl
      · rw [procesar_grupo_preserve http ph row.VARIABLE _ vd (hok k hk)]
        exact h

/-- Folding all group keys — among which the variable's own group appears —
computes each declared variable's final value. -/
theorem foldl_keys_main (http : HttpRequest → Option PyVal)
    (ph : List (String × PyVal)) (rows : List ConfigRow) (row : ConfigRow)
    (f : String)
    (hv : row.VARIABLE.isTruthy = true) (he : row.EXTRACCION.isSome = true)
    (hrowF : row ∈ rows.filter (fun r => r.FUENTE = some f))
    (hpwF : (rows.filter (fun r => r.FUENTE = some f)).Pairwise distinctVars)
    (hok : ∀ k, k ≠ f →
      ∀ r ∈ rows.filter (fun r => r.FUENTE = some k), ¬writesVar r row.VARIABLE) :
    ∀ (keys : List String) (vd : List (PyVal × PyVal)), f ∈ keys →
      pvLookup vd row.VARIABLE = some PyVal.none →
      pvLookup (keys.foldl (fun vd nombre =>
          _procesar_fuente_individual http ph
            (rows.filter (fun r => r.FUENTE = some nombre)) vd) vd)
          row.VARIABLE =
        some (match resultadoGrupo http ph
            (rows.filter (fun r => r.FUENTE = some f)) with
          | some res => optPy (_safe_eval_extraction row.EXTRACCION res)
          | Option.none => PyVal.none) := by
  intro keys
  induction keys with
  | nil => intro vd hmem; cases hmem
  | cons k ks ih =>
      intro vd hmem hinit
      simp only [List.foldl_cons]
      by_cases hk : k = f
      · subst hk
        apply foldl_keys_after http ph rows row k hv he hrowF hpwF hok ks
        rw [procesar_grupo_lookup http ph row hv he _ hrowF hpwF vd]
        cases hres : resultadoGrupo http ph
            (rows.filter (fun r => r.FUENTE = some k)) with
        | none => exact hinit
        | some res => rfl
      · have hmem2 : f ∈ ks := by
          cases List.mem_cons.mp hmem with
          | inl hh => exact absurd hh.symm hk
          | inr hh => exact hh
        apply ih _ hmem2
        rw [procesar_grupo_preserve http ph row.VARIABLE _ vd (hok k hk)]
        exact hinit

/-- C3: failure isolation in individual mode.  For configurations whose
rows declare pairwise-distinct variables (each variable has one owning
group — the engine's well-formedness assumption, §5 of the design), every
declared variable of every group ends up in the merged record with exactly
its own group's value: the extracted value when that group's single call
yielded a truthy body, and null when the group's call failed in any way
(substitution exception, transport error, no/falsy result) — regardless of
what happened to every other group.  In particular a failure in one group
never aborts or corrupts the others, and the aggregation always completes
(the aggregation function is total). -/
theorem individual_failure_isolation (http : HttpRequest → Option PyVal)
    (rows : List ConfigRow) (consecutivo : Int)
    (hdist : rows.Pairwise distinctVars)
    (row : ConfigRow) (hrow : row ∈ rows) (f : String)
    (hf : row.FUENTE = some f)
    (hv : row.VARIABLE.isTruthy = true) (he : row.EXTRACCION.isSome = true) :
    pvLookup (aggregateIndividual http rows consecutivo) row.VARIABLE =
      some (match groupResult http rows consecutivo f with
        | some res => optPy (_safe_eval_extraction row.EXTRACCION res)
        | Option.none => PyVal.none) := by
  have hsymm : Symmetric distinctVars := by
    intro a b hab hb ha
    exact (hab ha hb).symm
  have hrowF : row ∈ rows.filter (fun r => r.FUENTE = some f) :=
    List.mem_filter.mpr ⟨hrow, by simp [hf]⟩
  have hpwF : (rows.filter (fun r => r.FUENTE = some f)).Pairwise distinctVars :=
    hdist.sublist (List.filter_sublist rows)
  have hok : ∀ k, k ≠ f →
      ∀ r ∈ rows.filter (fun r => r.FUENTE = some k),
        ¬writesVar r row.VARIABLE := by
    intro k hk r hr hw
    obtain ⟨hw1, hw2, hw3⟩ := hw
    have hrmem := List.mem_of_mem_filter hr
    have hrk : r.FUENTE = some k := by
      have := (List.mem_filter.mp hr).2
      simpa using this
    have hne : r ≠ row := by
      intro hh
      rw [hh, hf] at hrk
      exact hk (Option.some.inj hrk).symm
    have hR := hdist.forall hsymm hrmem hrow hne
    exact hR hw1 hv hw3
  unfold aggregateIndividual
  apply foldl_keys_main http [("consecutivo", PyVal.int consecutivo)] rows row
    f hv he hrowF hpwF hok (groupKeys rows) _
    (mem_groupKeys rows row f hrow hf)
  apply pvLookup_const_map
  apply mem_uniqueVals
  exact List.mem_map_of_mem ConfigRow.VARIABLE hrow

/-- C3 witness: three concrete groups with the middle one failing — the
failed group's variable is null and the surviving groups' variables carry
their extracted values. -/
theorem individual_failure_isolation_witness :
    pvLookup (aggregateIndividual httpBFalla [rowGrupoA, rowGrupoB, rowGrupoC] 7)
        rowGrupoB.VARIABLE =
      some (match groupResult httpBFalla [rowGrupoA, rowGrupoB, rowGrupoC] 7
          "B_FUENTE" with
        | some res => optPy (_safe_eval_extraction rowGrupoB.EXTRACCION res)
        | Option.none => PyVal.none) ∧
    pvLookup (aggregateIndividual httpBFalla [rowGrupoA, rowGrupoB, rowGrupoC] 7)
        rowGrupoA.VARIABLE =
      some (match groupResult httpBFalla [rowGrupoA, rowGrupoB, rowGrupoC] 7
          "A_FUENTE" with
        | some res => optPy (_safe_eval_extraction rowGrupoA.EXTRACCION res)
        | Option.none => PyVal.none) ∧
    groupResult httpBFalla [rowGrupoA, rowGrupoB, rowGrupoC] 7 "B_FUENTE" =
      Option.none ∧
    (match groupResult httpBFalla [rowGrupoA, rowGrupoB, rowGrupoC] 7
        "A_FUENTE" with
      | some res => optPy (_safe_eval_extraction rowGrupoA.EXTRACCION res)
      | Option.none => PyVal.none) = PyVal.int 5 :=
  ⟨individual_failure_isolation httpBFalla [rowGrupoA, rowGrupoB, rowGrupoC] 7
    (by decide) rowGrupoB
    (List.mem_cons_of_mem _ (List.mem_cons_self _ _)) "B_FUENTE" rfl
    (by decide) rfl,
   individual_failure_isolation httpBFalla [rowGrupoA, rowGrupoB, rowGrupoC] 7
    (by decide) rowGrupoA (List.mem_cons_self _ _) "A_FUENTE" rfl
    (by decide) rfl,
   by decide, by decide⟩

end Riesgos
